import Mathlib

/-!
Verification development for the learning-lm-rs inference engine.

The repository's `src/model.rs` and `src/params.rs` are embedded shallowly:

* The safetensors loader (`params.rs`) works on raw bytes and produces `f32`
  values; each `f32` is represented here by its 32-bit pattern (a `Nat`),
  so byte-order questions are settled exactly at the bit level.
* The numeric path (`model.rs`) is embedded over `ℚ`.  Exact rational
  arithmetic mirrors the algebraic structure of the `f32` code; the four
  transcendental ingredients the kernels need (square root, exp, sigmoid,
  and the rotary sine/cosine table) have no exact rational counterpart and
  are therefore abstracted into a `TransOps` parameter that every
  definition and theorem is generic over.
* `src/operators.rs`, `src/kvcache.rs`, `src/tensor.rs` and
  `src/config.rs` are part of the repository but are not present in the
  sources available here; their definitions below are modelled from the
  specification (each carries a doc comment saying so).  `src/model.rs`
  and `src/params.rs` are translated directly.
* `random_sample` draws from an RNG; it is abstracted as a `Sampler`
  function of the step index and the logits, so "identical sampling
  draws" means "the same `Sampler`".
-/

/-! ## Part A: the safetensors loader (`src/params.rs`), at bit level -/

/-- A named tensor as stored in the safetensors container: raw bytes plus a
shape.  Bytes are `Nat`s below 256. -/
structure RawTensor where
  data : List ℕ
  shape : List ℕ
deriving DecidableEq

/-- A loaded tensor: each `f32` is represented by its 32-bit pattern. -/
structure NTensor where
  data : List ℕ
  shape : List ℕ
deriving DecidableEq

/-- `f32::from_be_bytes`: the 4 bytes, first byte most significant, assemble
the 32-bit pattern of the resulting float. -/
def f32_from_be_bytes : List ℕ → ℕ
  | [b0, b1, b2, b3] => ((b0 * 256 + b1) * 256 + b2) * 256 + b3
  | _ => 0

/-- `f32::from_le_bytes`: first byte least significant.  This is the
spec-side definition used to state the amended form of the byte-order
claim; it is compared against what the loader actually computes. -/
def f32_from_le_bytes : List ℕ → ℕ
  | [b0, b1, b2, b3] => ((b3 * 256 + b2) * 256 + b1) * 256 + b0
  | _ => 0

/-- `data.chunks_exact(4)`: aligned groups of 4 bytes, remainder dropped. -/
def chunks_exact4 : List ℕ → List (List ℕ)
  | b0 :: b1 :: b2 :: b3 :: rest => [b0, b1, b2, b3] :: chunks_exact4 rest
  | _ => []

/-- The per-chunk conversion in `get_tensor` (`src/params.rs:35-41`): the
loop `bytes[chunk.len() - i - 1] = chunk[i]` reverses the chunk, and the
reversed bytes are fed to `f32::from_be_bytes`. -/
def decode_chunk (chunk : List ℕ) : ℕ := f32_from_be_bytes chunk.reverse

/-- The byte-to-float conversion of a whole tensor (`src/params.rs:32-42`). -/
def tensor_bytes_to_f32 (raw : List ℕ) : List ℕ :=
  (chunks_exact4 raw).map decode_chunk

/-- The model configuration (`src/config.rs` is absent).
Modelled from the spec: §3 "Model configuration" lists vocabulary size,
layer count, query head count, key/value head count, hidden dimension,
intermediate dimension, normalization epsilon, rotary base, maximum
sequence length and the bos/eos token ids; field names follow the
accesses in `src/model.rs:38-52`. -/
structure LlamaConfigJson where
  vocab_size : ℕ
  num_hidden_layers : ℕ
  num_attention_heads : ℕ
  num_key_value_heads : ℕ
  hidden_size : ℕ
  intermediate_size : ℕ
  rms_norm_eps : ℚ
  rope_theta : ℚ
  max_position_embeddings : ℕ
  bos_token_id : ℕ
  eos_token_id : ℕ
deriving DecidableEq

/-- Parameter set produced by the loader (`src/params.rs:7-23`), with f32
values as bit patterns. -/
structure LLamaParamsN where
  embedding_table : NTensor
  rms_att_w : List NTensor
  wq : List NTensor
  wk : List NTensor
  wv : List NTensor
  wo : List NTensor
  rms_ffn_w : List NTensor
  w_up : List NTensor
  w_gate : List NTensor
  w_down : List NTensor
  rms_out_w : NTensor
  lm_head : NTensor
deriving DecidableEq

/-- `get_tensor` (`src/params.rs:27-46`): linear search of the container by
name, then byte conversion; the shape is taken from the container verbatim. -/
def get_tensor (st : List (String × RawTensor)) (name : String) : Option NTensor :=
  (st.find? (fun p => p.1 == name)).map
    (fun p => ⟨tensor_bytes_to_f32 p.2.data, p.2.shape⟩)

def name_q0 : String := "model.layers.0.self_attn.q_proj.weight"
def name_q1 : String := "model.layers.1.self_attn.q_proj.weight"
def name_k0 : String := "model.layers.0.self_attn.k_proj.weight"
def name_k1 : String := "model.layers.1.self_attn.k_proj.weight"
def name_v0 : String := "model.layers.0.self_attn.v_proj.weight"
def name_v1 : String := "model.layers.1.self_attn.v_proj.weight"
def name_o0 : String := "model.layers.0.self_attn.o_proj.weight"
def name_o1 : String := "model.layers.1.self_attn.o_proj.weight"
def name_up0 : String := "model.layers.0.mlp.up_proj.weight"
def name_up1 : String := "model.layers.1.mlp.up_proj.weight"
def name_gate0 : String := "model.layers.0.mlp.gate_proj.weight"
def name_gate1 : String := "model.layers.1.mlp.gate_proj.weight"
def name_down0 : String := "model.layers.0.mlp.down_proj.weight"
def name_down1 : String := "model.layers.1.mlp.down_proj.weight"
def name_att0 : String := "model.layers.0.input_layernorm.weight"
def name_att1 : String := "model.layers.1.input_layernorm.weight"
def name_ffn0 : String := "model.layers.0.post_attention_layernorm.weight"
def name_ffn1 : String := "model.layers.1.post_attention_layernorm.weight"
def name_norm : String := "model.norm.weight"
def name_lm_head : String := "lm_head.weight"

/-- The 20 tensor names `from_safetensors` looks up (`src/params.rs:48-88`).
`lm_head.weight` is looked up twice in the source (for `lm_head` and for
`embedding_table`), so it appears once here. -/
def required_names : List String :=
  [name_q0, name_q1, name_k0, name_k1, name_v0, name_v1, name_o0, name_o1,
   name_up0, name_up1, name_gate0, name_gate1, name_down0, name_down1,
   name_att0, name_att1, name_ffn0, name_ffn1, name_norm, name_lm_head]

/-- The two `.unwrap()`ed lookups for one per-layer collection in
`from_safetensors` (`src/params.rs:49-84`): layer 0's tensor then layer 1's,
aborting (`none`) when either is missing. -/
def get_layer_pair (st : List (String × RawTensor)) (n0 n1 : String) :
    Option (List NTensor) :=
  (get_tensor st n0).bind fun a =>
  (get_tensor st n1).bind fun b =>
  some [a, b]

/-- The four attention projection collections of `from_safetensors`
(`src/params.rs:49-64`): wq, wk, wv, wo. -/
def load_attn (st : List (String × RawTensor)) :
    Option (List NTensor × List NTensor × List NTensor × List NTensor) :=
  (get_layer_pair st name_q0 name_q1).bind fun wq =>
  (get_layer_pair st name_k0 name_k1).bind fun wk =>
  (get_layer_pair st name_v0 name_v1).bind fun wv =>
  (get_layer_pair st name_o0 name_o1).bind fun wo =>
  some (wq, wk, wv, wo)

/-- The feed-forward and normalization collections of `from_safetensors`
(`src/params.rs:65-84`): w_up, w_gate, w_down, rms_att_w, rms_ffn_w. -/
def load_ffn (st : List (String × RawTensor)) :
    Option (List NTensor × List NTensor × List NTensor × List NTensor × List NTensor) :=
  (get_layer_pair st name_up0 name_up1).bind fun w_up =>
  (get_layer_pair st name_gate0 name_gate1).bind fun w_gate =>
  (get_layer_pair st name_down0 name_down1).bind fun w_down =>
  (get_layer_pair st name_att0 name_att1).bind fun rms_att =>
  (get_layer_pair st name_ffn0 name_ffn1).bind fun rms_ffn =>
  some (w_up, w_gate, w_down, rms_att, rms_ffn)

/-- `LLamaParams::from_safetensors` (`src/params.rs:26-89`).  Each `.unwrap()`
on a missing tensor is a panic, modelled by `Option` (`none` = abort); the
lookups are grouped through the helpers above.  The `config` argument is
received but never consulted, exactly as in the source; in particular the
layer collections are hardcoded to layers 0 and 1 and no shape is checked
against the configuration.  `lm_head.weight` is looked up twice, once for
`lm_head` and once for `embedding_table`. -/
def from_safetensors (st : List (String × RawTensor)) (_config : LlamaConfigJson) :
    Option LLamaParamsN :=
  (load_attn st).bind fun a =>
  (load_ffn st).bind fun f =>
  (get_tensor st name_norm).bind fun nw =>
  (get_tensor st name_lm_head).bind fun lmh =>
  (get_tensor st name_lm_head).bind fun emb =>
  some ⟨emb, f.2.2.2.1, a.1, a.2.1, a.2.2.1, a.2.2.2,
        f.2.2.2.2, f.1, f.2.1, f.2.2.1, nw, lmh⟩

/-! ## Part B: the numeric path (`src/model.rs`), over ℚ -/

/-- The transcendental ingredients of the kernels, abstracted: `f32` square
root (RMS norm and the attention scale), exp (softmax), sigmoid (SwiGLU),
and the rotary cosine/sine for a given theta, absolute position and
dimension pair.  Modelled from the spec: these real-valued functions have
no exact rational counterpart, and no claim depends on their values. -/
structure TransOps where
  sqrt : ℚ → ℚ
  exp : ℚ → ℚ
  sigmoid : ℚ → ℚ
  rope_cs : ℚ → ℕ → ℕ → ℚ × ℚ

/-- A tensor over ℚ: flat row-major data plus a shape.
Modelled from the spec: §3 "Tensor" (`src/tensor.rs` is absent) — a shape
plus a contiguous row-major buffer; views are translated by explicit
sublist extraction and write-back. -/
structure QTensor where
  data : List ℚ
  shape : List ℕ

/-- Overwrite `vals.length` elements of `buf` starting at `offset`; the
functional rendering of writing through a tensor view into a buffer. -/
def writeRegion (buf : List ℚ) (offset : ℕ) (vals : List ℚ) : List ℚ :=
  buf.take offset ++ vals ++ buf.drop (offset + vals.length)

/-- The key/value cache.  Modelled from the spec: §3 "KVCache"
(`src/kvcache.rs` is absent) — per-layer growable tensors shaped
(max_sequence_length, kv_head_count × head_dim) and one logical length
counter shared across layers. -/
structure KVCache where
  k : List (List ℚ)
  v : List (List ℚ)
  len : ℕ

/-- `KVCache::new(n_layers, max_seq_len, dim, init_len)`.
Modelled from the spec: created sized by the model configuration; the
callers in `src/model.rs:56,173` pass initial length 0. -/
def KVCache.new (n_layers max_seq_len dim init_len : ℕ) : KVCache :=
  ⟨List.replicate n_layers (List.replicate (max_seq_len * dim) 0),
   List.replicate n_layers (List.replicate (max_seq_len * dim) 0),
   init_len⟩

/-- `increment(n)`.  Modelled from the spec: §4.2 — the sole mutator of the
logical length, extends it by `n`. -/
def KVCache.increment (c : KVCache) (n : ℕ) : KVCache :=
  ⟨c.k, c.v, c.len + n⟩

/-- `k_cache(layer, from)` as a read view.  Modelled from the spec: §3 — a
view from position `from` to the current length, `dim` elements per row. -/
def KVCache.k_view (c : KVCache) (layer offset dim : ℕ) : List ℚ :=
  ((c.k.getD layer []).drop (offset * dim)).take ((c.len - offset) * dim)

/-- `v_cache(layer, from)` as a read view; see `KVCache.k_view`. -/
def KVCache.v_view (c : KVCache) (layer offset dim : ℕ) : List ℚ :=
  ((c.v.getD layer []).drop (offset * dim)).take ((c.len - offset) * dim)

/-- Writing through the view `k_cache(layer, from)`: overwrite the region of
layer `layer`'s key buffer starting at element offset `offset`. -/
def KVCache.write_k (c : KVCache) (layer offset : ℕ) (vals : List ℚ) : KVCache :=
  ⟨c.k.set layer (writeRegion (c.k.getD layer []) offset vals), c.v, c.len⟩

/-- Writing through the view `v_cache(layer, from)`; see `KVCache.write_k`. -/
def KVCache.write_v (c : KVCache) (layer offset : ℕ) (vals : List ℚ) : KVCache :=
  ⟨c.k, c.v.set layer (writeRegion (c.v.getD layer []) offset vals), c.len⟩

/-- `OP::gather(out, ids, table)`.  Modelled from the spec: §4.1 — row
lookup, `out[i,:] = table[ids[i],:]`, `d` elements per row. -/
def gather (ids : List ℕ) (table : List ℚ) (d : ℕ) : List ℚ :=
  ids.flatMap (fun id => (table.drop (id * d)).take d)

/-- `OP::rms_norm(out, in, weight, eps)`.  Modelled from the spec: §4.1 —
`out[i,:] = in[i,:] / sqrt(mean(in[i,:]^2) + eps) * weight`, rows
independent; square root through `TransOps`. -/
def rms_norm (t : TransOps) (x w : List ℚ) (rows cols : ℕ) (eps : ℚ) : List ℚ :=
  (List.range (rows * cols)).map (fun idx =>
    let i := idx / cols
    let ms := ((List.range cols).map
        (fun j => x.getD (i * cols + j) 0 * x.getD (i * cols + j) 0)).sum / (cols : ℚ)
    x.getD idx 0 / t.sqrt (ms + eps) * w.getD (idx % cols) 0)

/-- `OP::matmul_transb(out, beta, a, b, alpha)`.  Modelled from the spec:
§4.1 — `out = beta * out + alpha * (a @ b^T)` with `a : (m, k)`,
`b : (n, k)`, producing `(m, n)`. -/
def matmul_transb (out : List ℚ) (beta : ℚ) (a b : List ℚ) (alpha : ℚ)
    (m k n : ℕ) : List ℚ :=
  (List.range (m * n)).map (fun idx =>
    let i := idx / n
    let j := idx % n
    beta * out.getD idx 0 +
      alpha * ((List.range k).map
        (fun l => a.getD (i * k + l) 0 * b.getD (j * k + l) 0)).sum)

/-- `OP::rope(tensor, start_pos, theta)`.  Modelled from the spec: §4.1 —
in-place on a (seq, heads, head_dim) tensor, each pair of adjacent
dimensions (2j, 2j+1) is rotated by an angle depending on the absolute
position `start_pos + row` and a per-pair frequency derived from theta;
the cosine/sine of that angle come from `TransOps.rope_cs`. -/
def rope (t : TransOps) (x : List ℚ) (seq heads dqkv start : ℕ) (theta : ℚ) : List ℚ :=
  (List.range (seq * heads * dqkv)).map (fun idx =>
    let i := idx / (heads * dqkv)
    let j := idx % dqkv
    let cs := t.rope_cs theta (start + i) (j / 2)
    if j % 2 = 0 then
      x.getD idx 0 * cs.1 - x.getD (idx + 1) 0 * cs.2
    else
      x.getD (idx - 1) 0 * cs.2 + x.getD idx 0 * cs.1)

/-- `OP::masked_softmax(scores)` on a (batch, q_len, total_len) buffer
(batch = kv_heads × groups).  Modelled from the spec: §4.1/§4.3 — row-wise
softmax over the last axis with a causal mask: a query at row `q` may
attend to key positions up to `total_len - q_len + q`; masked entries
contribute zero probability. -/
def masked_softmax (t : TransOps) (scores : List ℚ) (batch q_len total_len : ℕ) :
    List ℚ :=
  (List.range (batch * q_len * total_len)).map (fun idx =>
    let kp := idx % total_len
    let qp := (idx / total_len) % q_len
    let bound := total_len - q_len + qp
    if kp ≤ bound then
      t.exp (scores.getD idx 0) /
        ((List.range (bound + 1)).map
          (fun kp2 => t.exp (scores.getD (idx - kp + kp2) 0))).sum
    else 0)

/-- `OP::swiglu(up, gate)`.  Modelled from the spec: §4.1 — elementwise
`up[i] = up[i] * gate[i] * sigmoid(gate[i])`, written into `up`. -/
def swiglu (t : TransOps) (up gate : List ℚ) : List ℚ :=
  List.zipWith (fun u g => u * g * t.sigmoid g) up gate

/-- Parameter set over ℚ, mirroring `LLamaParams<f32>` (`src/params.rs:7-23`). -/
structure LLamaParamsQ where
  embedding_table : QTensor
  rms_att_w : List QTensor
  wq : List QTensor
  wk : List QTensor
  wv : List QTensor
  wo : List QTensor
  rms_ffn_w : List QTensor
  w_up : List QTensor
  w_gate : List QTensor
  w_down : List QTensor
  rms_out_w : QTensor
  lm_head : QTensor

/-- The model struct `Llama<f32>` (`src/model.rs:14-28`). -/
structure Llama where
  vocab : ℕ
  n_layers : ℕ
  n_q_h : ℕ
  n_kv_h : ℕ
  d : ℕ
  dqkv : ℕ
  di : ℕ
  eps : ℚ
  rope_theta : ℚ
  max_seq_len : ℕ
  params : LLamaParamsQ
  bos_token_id : ℕ
  eos_token_id : ℕ

/-- `Llama::new_cache` (`src/model.rs:55-57`). -/
def new_cache (m : Llama) : KVCache :=
  KVCache.new m.n_layers m.max_seq_len (m.n_kv_h * m.dqkv) 0

/-- Flat index into the attention-score buffer
`att_scores[kv_head][group][q_pos][k_pos]` (`src/model.rs:260-263`). -/
def att_idx (n_groups seq_len total_seq_len kv_head group q_pos k_pos : ℕ) : ℕ :=
  kv_head * n_groups * seq_len * total_seq_len + group * seq_len * total_seq_len +
    q_pos * total_seq_len + k_pos

/-- The raw score written by the score loop of `self_attention`
(`src/model.rs:251-257`): dot product over the head dimension between
`Q[q_pos, q_head * dqkv + _]` and `K[k_pos, kv_head * dqkv + _]`, scaled by
`1 / sqrt(dqkv)`. -/
def attn_score (t : TransOps) (q k : List ℚ) (n_kv_h n_groups dqkv kv_head group q_pos k_pos : ℕ) : ℚ :=
  (((List.range dqkv).map (fun d =>
      q.getD (q_pos * (n_kv_h * n_groups * dqkv) + (kv_head * n_groups + group) * dqkv + d) 0 *
      k.getD (k_pos * (n_kv_h * dqkv) + kv_head * dqkv + d) 0)).sum) *
    (1 / t.sqrt (dqkv : ℚ))

/-- Innermost score loop `for k_pos in 0..total_seq_len` (`src/model.rs:249-265`). -/
def score_kp_loop (t : TransOps) (q k : List ℚ) (n_kv_h n_groups seq_len total_seq_len dqkv kv_head group q_pos : ℕ)
    (att : List ℚ) : List ℚ :=
  (List.range total_seq_len).foldl (fun a k_pos =>
    a.set (att_idx n_groups seq_len total_seq_len kv_head group q_pos k_pos)
      (attn_score t q k n_kv_h n_groups dqkv kv_head group q_pos k_pos)) att

/-- Score loop `for q_pos in 0..seq_len` (`src/model.rs:248-266`). -/
def score_qp_loop (t : TransOps) (q k : List ℚ) (n_kv_h n_groups seq_len total_seq_len dqkv kv_head group : ℕ)
    (att : List ℚ) : List ℚ :=
  (List.range seq_len).foldl (fun a q_pos =>
    score_kp_loop t q k n_kv_h n_groups seq_len total_seq_len dqkv kv_head group q_pos a) att

/-- Score loop `for group in 0..n_groups` (`src/model.rs:241-267`). -/
def score_g_loop (t : TransOps) (q k : List ℚ) (n_kv_h n_groups seq_len total_seq_len dqkv kv_head : ℕ)
    (att : List ℚ) : List ℚ :=
  (List.range n_groups).foldl (fun a group =>
    score_qp_loop t q k n_kv_h n_groups seq_len total_seq_len dqkv kv_head group a) att

/-- The whole score phase of `self_attention` (`src/model.rs:240-268`). -/
def attention_scores (t : TransOps) (q k : List ℚ) (n_kv_h n_groups seq_len total_seq_len dqkv : ℕ)
    (att : List ℚ) : List ℚ :=
  (List.range n_kv_h).foldl (fun a kv_head =>
    score_g_loop t q k n_kv_h n_groups seq_len total_seq_len dqkv kv_head a) att

/-- Flat index into the output hidden-state buffer
`hidden_states[q_pos][q_head * dqkv + d]` (`src/model.rs:296-297`). -/
def h_idx (n_kv_h n_groups dqkv q_pos q_head d : ℕ) : ℕ :=
  q_pos * (n_kv_h * n_groups * dqkv) + q_head * dqkv + d

/-- The weighted sum written by the second phase of `self_attention`
(`src/model.rs:285-294`): the attention-weighted sum over the kv head's
value vectors across all `total_seq_len` positions. -/
def att_weighted (att v : List ℚ) (n_kv_h n_groups seq_len total_seq_len dqkv kv_head group q_pos d : ℕ) : ℚ :=
  ((List.range total_seq_len).map (fun k_pos =>
    att.getD (att_idx n_groups seq_len total_seq_len kv_head group q_pos k_pos) 0 *
    v.getD (k_pos * (n_kv_h * dqkv) + kv_head * dqkv + d) 0)).sum

/-- Innermost output loop `for d in 0..dqkv` (`src/model.rs:281-299`). -/
def out_d_loop (att v : List ℚ) (n_kv_h n_groups seq_len total_seq_len dqkv kv_head group q_pos : ℕ)
    (hid : List ℚ) : List ℚ :=
  (List.range dqkv).foldl (fun h d =>
    h.set (h_idx n_kv_h n_groups dqkv q_pos (kv_head * n_groups + group) d)
      (att_weighted att v n_kv_h n_groups seq_len total_seq_len dqkv kv_head group q_pos d)) hid

/-- Output loop `for q_pos in 0..seq_len` (`src/model.rs:280-300`). -/
def out_qp_loop (att v : List ℚ) (n_kv_h n_groups seq_len total_seq_len dqkv kv_head group : ℕ)
    (hid : List ℚ) : List ℚ :=
  (List.range seq_len).foldl (fun h q_pos =>
    out_d_loop att v n_kv_h n_groups seq_len total_seq_len dqkv kv_head group q_pos h) hid

/-- Output loop `for group in 0..n_groups` (`src/model.rs:274-301`). -/
def out_g_loop (att v : List ℚ) (n_kv_h n_groups seq_len total_seq_len dqkv kv_head : ℕ)
    (hid : List ℚ) : List ℚ :=
  (List.range n_groups).foldl (fun h group =>
    out_qp_loop att v n_kv_h n_groups seq_len total_seq_len dqkv kv_head group h) hid

/-- The whole weighted-sum phase of `self_attention` (`src/model.rs:273-302`). -/
def attention_output (att v : List ℚ) (n_kv_h n_groups seq_len total_seq_len dqkv : ℕ)
    (hid : List ℚ) : List ℚ :=
  (List.range n_kv_h).foldl (fun h kv_head =>
    out_g_loop att v n_kv_h n_groups seq_len total_seq_len dqkv kv_head h) hid

/-- `self_attention` (`src/model.rs:227-303`): score phase into the
attention buffer, `masked_softmax` over it, then the weighted-sum phase
into the hidden-state buffer.  Returns (hidden_states, att_scores) — the
two buffers the source mutates. -/
def self_attention (t : TransOps) (hidden_states att_scores q k v : List ℚ)
    (n_kv_h n_groups seq_len total_seq_len dqkv : ℕ) : List ℚ × List ℚ :=
  let att1 := attention_scores t q k n_kv_h n_groups seq_len total_seq_len dqkv att_scores
  let att2 := masked_softmax t att1 (n_kv_h * n_groups) seq_len total_seq_len
  (attention_output att2 v n_kv_h n_groups seq_len total_seq_len dqkv hidden_states, att2)

/-- `mlp` (`src/model.rs:304-320`).  The gate/up scratch buffers are fully
determined by the `beta = 0` matmuls, so they enter as fresh zero buffers. -/
def mlp (t : TransOps) (residual : List ℚ) (w_up w_down w_gate rms_w : List ℚ)
    (seq_len d di : ℕ) (eps : ℚ) : List ℚ :=
  let hidden := rms_norm t residual rms_w seq_len d eps
  let gate := matmul_transb (List.replicate (seq_len * di) 0) 0 hidden w_gate 1 seq_len d di
  let up := matmul_transb (List.replicate (seq_len * di) 0) 0 hidden w_up 1 seq_len d di
  let up2 := swiglu t up gate
  matmul_transb residual 1 up2 w_down 1 seq_len di d

/-- One iteration of the layer loop in `forward` (`src/model.rs:79-142`).
The q buffer and the attention-score buffer are reused across layers in
the source but are fully overwritten before being read (beta = 0 matmul,
full-coverage score loop), so they enter as fresh zero buffers. -/
def layer_forward (t : TransOps) (m : Llama) (seq_len past total n_groups : ℕ)
    (residual : List ℚ) (cache : KVCache) (layer : ℕ) : List ℚ × KVCache :=
  let kv_dim := m.n_kv_h * m.dqkv
  let hidden := rms_norm t residual (m.params.rms_att_w.getD layer ⟨[], []⟩).data seq_len m.d m.eps
  let q0 := matmul_transb (List.replicate (seq_len * (m.n_q_h * m.dqkv)) 0) 0 hidden
      (m.params.wq.getD layer ⟨[], []⟩).data 1 seq_len m.d (m.n_q_h * m.dqkv)
  let k0 := matmul_transb (List.replicate (seq_len * kv_dim) 0) 0 hidden
      (m.params.wk.getD layer ⟨[], []⟩).data 1 seq_len m.d kv_dim
  let v0 := matmul_transb (List.replicate (seq_len * kv_dim) 0) 0 hidden
      (m.params.wv.getD layer ⟨[], []⟩).data 1 seq_len m.d kv_dim
  let q1 := rope t q0 seq_len m.n_q_h m.dqkv past m.rope_theta
  let k1 := rope t k0 seq_len m.n_kv_h m.dqkv past m.rope_theta
  let cache1 := (cache.write_k layer (past * kv_dim) k1).write_v layer (past * kv_dim) v0
  let full_k := cache1.k_view layer 0 kv_dim
  let full_v := cache1.v_view layer 0 kv_dim
  let att_out := (self_attention t hidden
      (List.replicate (m.n_kv_h * n_groups * seq_len * total) 0) q1 full_k full_v
      m.n_kv_h n_groups seq_len total m.dqkv).1
  let residual1 := matmul_transb residual 1 att_out
      (m.params.wo.getD layer ⟨[], []⟩).data 1 seq_len (m.n_q_h * m.dqkv) m.d
  let residual2 := mlp t residual1 (m.params.w_up.getD layer ⟨[], []⟩).data
      (m.params.w_down.getD layer ⟨[], []⟩).data (m.params.w_gate.getD layer ⟨[], []⟩).data
      (m.params.rms_ffn_w.getD layer ⟨[], []⟩).data seq_len m.d m.di m.eps
  (residual2, cache1)

/-- The prologue and layer loop of `forward` (`src/model.rs:59-142`):
cache increment, embedding lookup, then the per-layer computation.
Returns the final residual stream and the updated cache. -/
def layers_out (t : TransOps) (m : Llama) (input : List ℕ) (cache : KVCache) :
    List ℚ × KVCache :=
  let seq_len := input.length
  let past := cache.len
  let cache1 := cache.increment seq_len
  let total := past + seq_len
  let n_groups := m.n_q_h / m.n_kv_h
  let residual := gather input m.params.embedding_table.data m.d
  (List.range m.n_layers).foldl
    (fun st layer => layer_forward t m seq_len past total n_groups st.1 st.2 layer)
    (residual, cache1)

/-- The last row of a (seq_len, d) buffer, as sliced by
`src/model.rs:147-148` at element offset `(seq_len - 1) * d`. -/
def last_row (x : List ℚ) (seq_len d : ℕ) : List ℚ :=
  (x.drop ((seq_len - 1) * d)).take d

/-- `Llama::forward` (`src/model.rs:59-160`): layer stack, then the
epilogue — slice the last position, RMS-normalize it against
`rms_out_w`, and project through `lm_head` into a (1, vocab) logits
tensor.  Returns the logits and the updated cache. -/
def forward (t : TransOps) (m : Llama) (input : List ℕ) (cache : KVCache) :
    QTensor × KVCache :=
  let st := layers_out t m input cache
  let hidden := rms_norm t (last_row st.1 input.length m.d) m.params.rms_out_w.data 1 m.d m.eps
  let logits := matmul_transb (List.replicate (1 * m.vocab) 0) 0 hidden
      m.params.lm_head.data 1 1 m.d m.vocab
  (⟨logits, [1, m.vocab]⟩, st.2)

/-- A sampling oracle standing for `OP::random_sample` plus its RNG state:
given the step index, the logits and (top_p, top_k, temperature), produce
the drawn token.  Two runs with the same `Sampler` have identical
sampling draws. -/
def Sampler : Type := ℕ → List ℚ → ℚ → ℕ → ℚ → ℕ

/-- The generation loop of `generate` (`src/model.rs:177-189`): up to
`fuel` iterations; each runs `forward` on the current input, samples,
stops before appending when the sample is the eos id, otherwise appends
and continues with the single sampled token as the next input. -/
def gen_loop (t : TransOps) (m : Llama) (sampler : Sampler) (top_p : ℚ) (top_k : ℕ)
    (temperature : ℚ) : ℕ → List ℕ → KVCache → List ℕ → ℕ → List ℕ × KVCache
  | 0, _, cache, result, _ => (result, cache)
  | fuel + 1, input, cache, result, step =>
    let fc := forward t m input cache
    let next_token := sampler step fc.1.data top_p top_k temperature
    if next_token = m.eos_token_id then (result, fc.2)
    else gen_loop t m sampler top_p top_k temperature fuel [next_token] fc.2
      (result ++ [next_token]) (step + 1)

/-- `Llama::generate` (`src/model.rs:162-192`): result seeded with the
prompt plus the bos id, a fresh zero-length cache, and the loop started
on the prompt itself. -/
def generate (t : TransOps) (m : Llama) (sampler : Sampler) (token_ids : List ℕ)
    (max_len : ℕ) (top_p : ℚ) (top_k : ℕ) (temperature : ℚ) : List ℕ :=
  (gen_loop t m sampler top_p top_k temperature max_len token_ids
    (KVCache.new m.n_layers m.max_seq_len (m.n_kv_h * m.dqkv) 0)
    (token_ids ++ [m.bos_token_id]) 0).1

/-- The generation loop of `answer` (`src/model.rs:209-221`), transcribed
separately from `gen_loop` so that the equivalence of the two entry
points is a theorem rather than a definition. -/
def ans_loop (t : TransOps) (m : Llama) (sampler : Sampler) (top_p : ℚ) (top_k : ℕ)
    (temperature : ℚ) : ℕ → List ℕ → KVCache → List ℕ → ℕ → List ℕ × KVCache
  | 0, _, cache, result, _ => (result, cache)
  | fuel + 1, input, cache, result, step =>
    let fc := forward t m input cache
    let next_token := sampler step fc.1.data top_p top_k temperature
    if next_token = m.eos_token_id then (result, fc.2)
    else ans_loop t m sampler top_p top_k temperature fuel [next_token] fc.2
      (result ++ [next_token]) (step + 1)

/-- `Llama::answer` (`src/model.rs:195-224`): like `generate` but running
against the caller-supplied cache; the pair returns the result together
with the mutated cache. -/
def answer (t : TransOps) (m : Llama) (sampler : Sampler) (token_ids : List ℕ)
    (max_len : ℕ) (top_p : ℚ) (top_k : ℕ) (temperature : ℚ) (kv_cache : KVCache) :
    List ℕ × KVCache :=
  ans_loop t m sampler top_p top_k temperature max_len token_ids kv_cache
    (token_ids ++ [m.bos_token_id]) 0

/-- The sequence of inputs `generate`'s loop passes to `forward`, in
order; an observation of `gen_loop` obtained by the same recursion. -/
def gen_inputs_loop (t : TransOps) (m : Llama) (sampler : Sampler) (top_p : ℚ)
    (top_k : ℕ) (temperature : ℚ) : ℕ → List ℕ → KVCache → ℕ → List (List ℕ)
  | 0, _, _, _ => []
  | fuel + 1, input, cache, step =>
    let fc := forward t m input cache
    let next_token := sampler step fc.1.data top_p top_k temperature
    input :: (if next_token = m.eos_token_id then []
      else gen_inputs_loop t m sampler top_p top_k temperature fuel [next_token] fc.2 (step + 1))

/-- The forward inputs of a `generate` call. -/
def generate_forward_inputs (t : TransOps) (m : Llama) (sampler : Sampler)
    (token_ids : List ℕ) (max_len : ℕ) (top_p : ℚ) (top_k : ℕ) (temperature : ℚ) :
    List (List ℕ) :=
  gen_inputs_loop t m sampler top_p top_k temperature max_len token_ids
    (KVCache.new m.n_layers m.max_seq_len (m.n_kv_h * m.dqkv) 0) 0

/-- The forward inputs of an `answer` call against a given cache (the
`answer` loop is the same recursion as the `generate` loop). -/
def answer_forward_inputs (t : TransOps) (m : Llama) (sampler : Sampler)
    (token_ids : List ℕ) (max_len : ℕ) (top_p : ℚ) (top_k : ℕ) (temperature : ℚ)
    (kv_cache : KVCache) : List (List ℕ) :=
  gen_inputs_loop t m sampler top_p top_k temperature max_len token_ids kv_cache 0

/-! ### Concrete instances used by witnesses and counterexamples -/

/-- A concrete `TransOps` instantiation for evaluating witnesses: square
root as the identity, exp and sigmoid constantly 1, rotation by angle 0. -/
def t_ex : TransOps := ⟨fun x => x, fun _ => 1, fun _ => 1, fun _ _ _ => (1, 0)⟩

/-- Concrete zero-layer parameters over a vocabulary of 10 tokens with
hidden dimension 1. -/
def params_ex : LLamaParamsQ :=
  ⟨⟨[0, 1, 2, 3, 4, 5, 6, 7, 8, 9], [10, 1]⟩, [], [], [], [], [], [], [], [], [],
   ⟨[1], [1]⟩, ⟨[0, 1, 2, 3, 4, 5, 6, 7, 8, 9], [10, 1]⟩⟩

/-- A concrete zero-layer model: vocab 10, bos id 7, eos id 9. -/
def m_ex : Llama := ⟨10, 0, 1, 1, 1, 1, 1, 0, 1, 4, params_ex, 7, 9⟩

/-- A sampler that always draws token `c`. -/
def sampler_c (c : ℕ) : Sampler := fun _ _ _ _ _ => c

/-- A concrete raw tensor for loader examples: four zero bytes, shape [1]. -/
def ex_raw : RawTensor := ⟨[0, 0, 0, 0], [1]⟩

/-- A container holding all 20 required names, each bound to `ex_raw`. -/
def ex_container : List (String × RawTensor) :=
  [(name_q0, ex_raw), (name_q1, ex_raw), (name_k0, ex_raw), (name_k1, ex_raw),
   (name_v0, ex_raw), (name_v1, ex_raw), (name_o0, ex_raw), (name_o1, ex_raw),
   (name_up0, ex_raw), (name_up1, ex_raw), (name_gate0, ex_raw), (name_gate1, ex_raw),
   (name_down0, ex_raw), (name_down1, ex_raw), (name_att0, ex_raw), (name_att1, ex_raw),
   (name_ffn0, ex_raw), (name_ffn1, ex_raw), (name_norm, ex_raw), (name_lm_head, ex_raw)]

/-- A container like `ex_container` but whose layer-0 q projection carries
shape [5], inconsistent with any sensible configuration. -/
def ex_container_bad : List (String × RawTensor) :=
  [(name_q0, ⟨[0, 0, 0, 0], [5]⟩), (name_q1, ex_raw), (name_k0, ex_raw), (name_k1, ex_raw),
   (name_v0, ex_raw), (name_v1, ex_raw), (name_o0, ex_raw), (name_o1, ex_raw),
   (name_up0, ex_raw), (name_up1, ex_raw), (name_gate0, ex_raw), (name_gate1, ex_raw),
   (name_down0, ex_raw), (name_down1, ex_raw), (name_att0, ex_raw), (name_att1, ex_raw),
   (name_ffn0, ex_raw), (name_ffn1, ex_raw), (name_norm, ex_raw), (name_lm_head, ex_raw)]

/-- A configuration declaring 3 hidden layers. -/
def cfg3 : LlamaConfigJson := ⟨2048, 3, 8, 4, 128, 384, 1, 1, 512, 1, 2⟩

/-- A configuration declaring 2 hidden layers (the repository's test model
geometry: 8 query heads, 4 kv heads, hidden 128). -/
def cfg2 : LlamaConfigJson := ⟨2048, 2, 8, 4, 128, 384, 1, 1, 512, 1, 2⟩

/-- The loaded tensor produced from `ex_raw`: one f32 with bit pattern 0. -/
def ex_ntensor : NTensor := ⟨[0], [1]⟩

/-- The parameter set `from_safetensors` produces from `ex_container`. -/
def ex_params : LLamaParamsN :=
  ⟨ex_ntensor, [ex_ntensor, ex_ntensor], [ex_ntensor, ex_ntensor],
   [ex_ntensor, ex_ntensor], [ex_ntensor, ex_ntensor], [ex_ntensor, ex_ntensor],
   [ex_ntensor, ex_ntensor], [ex_ntensor, ex_ntensor], [ex_ntensor, ex_ntensor],
   [ex_ntensor, ex_ntensor], ex_ntensor, ex_ntensor⟩

/-! ## Theorems -/

/-! ### Loader lemmas and claims C7, C8, C9 -/

theorem tensor_bytes_to_f32_cons (b0 b1 b2 b3 : ℕ) (rest : List ℕ) :
    tensor_bytes_to_f32 (b0 :: b1 :: b2 :: b3 :: rest) =
      decode_chunk [b0, b1, b2, b3] :: tensor_bytes_to_f32 rest := rfl

theorem getD_cons4 (b0 b1 b2 b3 : ℕ) (rest : List ℕ) (n : ℕ) (d : ℕ) :
    (b0 :: b1 :: b2 :: b3 :: rest).getD (n + 4) d = rest.getD n d := by
  simp [List.getD_cons_succ]

/-- **C7** (corrected).  For every aligned 4-byte group [b0,b1,b2,b3] of a
tensor's raw data, the loader stores the float whose bit pattern interprets
those bytes in LITTLE-endian order, `f32::from_le_bytes([b0,b1,b2,b3])`:
the conversion loop reverses the chunk before applying `from_be_bytes`,
so the composite is a little-endian read, not the big-endian read the
claim states. -/
theorem c7_loader_little_endian : ∀ (j : ℕ) (raw : List ℕ), 4 * j + 4 ≤ raw.length →
    (tensor_bytes_to_f32 raw).getD j 0 =
      f32_from_le_bytes [raw.getD (4 * j) 0, raw.getD (4 * j + 1) 0,
        raw.getD (4 * j + 2) 0, raw.getD (4 * j + 3) 0] := by
  intro j
  induction j with
  | zero =>
    intro raw h
    match raw, h with
    | b0 :: b1 :: b2 :: b3 :: rest, _ => rfl
  | succ j ih =>
    intro raw h
    match raw, h with
    | b0 :: b1 :: b2 :: b3 :: rest, h =>
      have h' : 4 * j + 4 ≤ rest.length := by
        simp only [List.length_cons] at h; omega
      have e0 : 4 * (j + 1) = 4 * j + 4 := by ring
      have e1 : 4 * j + 4 + 1 = (4 * j + 1) + 4 := by ring
      have e2 : 4 * j + 4 + 2 = (4 * j + 2) + 4 := by ring
      have e3 : 4 * j + 4 + 3 = (4 * j + 3) + 4 := by ring
      rw [tensor_bytes_to_f32_cons, List.getD_cons_succ, e0, e1, e2, e3,
        getD_cons4, getD_cons4, getD_cons4, getD_cons4, ih rest h']

/-- Witness for C7's theorem at a concrete 8-byte buffer, second chunk. -/
theorem c7_loader_little_endian_witness :
    4 * 1 + 4 ≤ ([1, 2, 3, 4, 5, 6, 7, 8] : List ℕ).length ∧
    (tensor_bytes_to_f32 [1, 2, 3, 4, 5, 6, 7, 8]).getD 1 0 =
      f32_from_le_bytes [([1, 2, 3, 4, 5, 6, 7, 8] : List ℕ).getD (4 * 1) 0,
        ([1, 2, 3, 4, 5, 6, 7, 8] : List ℕ).getD (4 * 1 + 1) 0,
        ([1, 2, 3, 4, 5, 6, 7, 8] : List ℕ).getD (4 * 1 + 2) 0,
        ([1, 2, 3, 4, 5, 6, 7, 8] : List ℕ).getD (4 * 1 + 3) 0] :=
  ⟨by decide, c7_loader_little_endian 1 [1, 2, 3, 4, 5, 6, 7, 8] (by decide)⟩

/-- Counterexample to C7 as stated: on the chunk [0,0,0,1] the loader does
not store `f32::from_be_bytes([0,0,0,1])` (bit pattern 1); it stores bit
pattern 2^24. -/
theorem c7_counterexample :
    (tensor_bytes_to_f32 [0, 0, 0, 1]).getD 0 0 ≠ f32_from_be_bytes [0, 0, 0, 1] := by
  decide

theorem get_layer_pair_some (st : List (String × RawTensor)) (n0 n1 : String)
    (l : List NTensor) (h : get_layer_pair st n0 n1 = some l) :
    ∃ a b, get_tensor st n0 = some a ∧ get_tensor st n1 = some b ∧ l = [a, b] := by
  simp only [get_layer_pair, Option.bind_eq_some] at h
  obtain ⟨a, ha, b, hb, hl⟩ := h
  exact ⟨a, b, ha, hb, (Option.some.inj hl).symm⟩

theorem load_attn_some (st : List (String × RawTensor))
    (a4 : List NTensor × List NTensor × List NTensor × List NTensor)
    (h : load_attn st = some a4) :
    ∃ wq wk wv wo, get_layer_pair st name_q0 name_q1 = some wq ∧
      get_layer_pair st name_k0 name_k1 = some wk ∧
      get_layer_pair st name_v0 name_v1 = some wv ∧
      get_layer_pair st name_o0 name_o1 = some wo ∧ a4 = (wq, wk, wv, wo) := by
  simp only [load_attn, Option.bind_eq_some] at h
  obtain ⟨wq, h1, wk, h2, wv, h3, wo, h4, he⟩ := h
  exact ⟨wq, wk, wv, wo, h1, h2, h3, h4, (Option.some.inj he).symm⟩

theorem load_ffn_some (st : List (String × RawTensor))
    (f5 : List NTensor × List NTensor × List NTensor × List NTensor × List NTensor)
    (h : load_ffn st = some f5) :
    ∃ w_up w_gate w_down rms_att rms_ffn,
      get_layer_pair st name_up0 name_up1 = some w_up ∧
      get_layer_pair st name_gate0 name_gate1 = some w_gate ∧
      get_layer_pair st name_down0 name_down1 = some w_down ∧
      get_layer_pair st name_att0 name_att1 = some rms_att ∧
      get_layer_pair st name_ffn0 name_ffn1 = some rms_ffn ∧
      f5 = (w_up, w_gate, w_down, rms_att, rms_ffn) := by
  simp only [load_ffn, Option.bind_eq_some] at h
  obtain ⟨wu, h1, wg, h2, wd, h3, ra, h4, rf, h5, he⟩ := h
  exact ⟨wu, wg, wd, ra, rf, h1, h2, h3, h4, h5, (Option.some.inj he).symm⟩

theorem from_safetensors_some (st : List (String × RawTensor)) (cfg : LlamaConfigJson)
    (p : LLamaParamsN) (h : from_safetensors st cfg = some p) :
    ∃ wq wk wv wo w_up w_gate w_down rms_att rms_ffn nw lmh,
      get_layer_pair st name_q0 name_q1 = some wq ∧
      get_layer_pair st name_k0 name_k1 = some wk ∧
      get_layer_pair st name_v0 name_v1 = some wv ∧
      get_layer_pair st name_o0 name_o1 = some wo ∧
      get_layer_pair st name_up0 name_up1 = some w_up ∧
      get_layer_pair st name_gate0 name_gate1 = some w_gate ∧
      get_layer_pair st name_down0 name_down1 = some w_down ∧
      get_layer_pair st name_att0 name_att1 = some rms_att ∧
      get_layer_pair st name_ffn0 name_ffn1 = some rms_ffn ∧
      get_tensor st name_norm = some nw ∧
      get_tensor st name_lm_head = some lmh ∧
      p = ⟨lmh, rms_att, wq, wk, wv, wo, rms_ffn, w_up, w_gate, w_down, nw, lmh⟩ := by
  simp only [from_safetensors, Option.bind_eq_some] at h
  obtain ⟨a4, ha, f5, hf, nw, hnw, lmh, hlmh, emb, hemb, he⟩ := h
  obtain ⟨wq, wk, wv, wo, h1, h2, h3, h4, ha4⟩ := load_attn_some st a4 ha
  obtain ⟨wu, wg, wd, ra, rf, h5, h6, h7, h8, h9, hf5⟩ := load_ffn_some st f5 hf
  subst ha4 hf5
  have hemb2 : emb = lmh := (Option.some.inj (hlmh.symm.trans hemb)).symm
  rw [hemb2] at he
  exact ⟨wq, wk, wv, wo, wu, wg, wd, ra, rf, nw, lmh, h1, h2, h3, h4, h5, h6, h7,
    h8, h9, hnw, hlmh, (Option.some.inj he).symm⟩

theorem get_layer_pair_build (st : List (String × RawTensor)) (n0 n1 : String)
    (a b : NTensor) (h0 : get_tensor st n0 = some a) (h1 : get_tensor st n1 = some b) :
    get_layer_pair st n0 n1 = some [a, b] := by
  unfold get_layer_pair
  rw [h0, h1]
  rfl

/-- **C8** (corrected).  `from_safetensors` does not build `L` entries per
collection: every per-layer collection it produces has exactly 2 entries,
loaded from the hardcoded layer-0 and layer-1 tensor names, whatever the
configuration's layer count says; `forward`'s loop over `0..n_layers`
therefore indexes only valid entries exactly when `num_hidden_layers = 2`. -/
theorem c8_collections_hardcoded_to_two (st : List (String × RawTensor))
    (cfg : LlamaConfigJson) (p : LLamaParamsN) (h : from_safetensors st cfg = some p) :
    (p.wq.length = 2 ∧ p.wk.length = 2 ∧ p.wv.length = 2 ∧ p.wo.length = 2 ∧
      p.w_up.length = 2 ∧ p.w_gate.length = 2 ∧ p.w_down.length = 2 ∧
      p.rms_att_w.length = 2 ∧ p.rms_ffn_w.length = 2) ∧
    (∃ t0 t1, get_tensor st name_q0 = some t0 ∧ get_tensor st name_q1 = some t1 ∧
      p.wq = [t0, t1]) := by
  obtain ⟨wq, wk, wv, wo, wu, wg, wd, ra, rf, nw, lmh, h1, h2, h3, h4, h5, h6, h7,
    h8, h9, hnw, hlmh, hp⟩ := from_safetensors_some st cfg p h
  subst hp
  obtain ⟨q0, q1, hq0, hq1, hwq⟩ := get_layer_pair_some st _ _ _ h1
  obtain ⟨a, b, _, _, hwk⟩ := get_layer_pair_some st _ _ _ h2
  obtain ⟨a2, b2, _, _, hwv⟩ := get_layer_pair_some st _ _ _ h3
  obtain ⟨a3, b3, _, _, hwo⟩ := get_layer_pair_some st _ _ _ h4
  obtain ⟨a4, b4, _, _, hwu⟩ := get_layer_pair_some st _ _ _ h5
  obtain ⟨a5, b5, _, _, hwg⟩ := get_layer_pair_some st _ _ _ h6
  obtain ⟨a6, b6, _, _, hwd⟩ := get_layer_pair_some st _ _ _ h7
  obtain ⟨a7, b7, _, _, hra⟩ := get_layer_pair_some st _ _ _ h8
  obtain ⟨a8, b8, _, _, hrf⟩ := get_layer_pair_some st _ _ _ h9
  subst hwq hwk hwv hwo hwu hwg hwd hra hrf
  exact ⟨⟨rfl, rfl, rfl, rfl, rfl, rfl, rfl, rfl, rfl⟩, q0, q1, hq0, hq1, rfl⟩

/-- Witness for C8's theorem: loading the concrete 20-name container with a
2-layer configuration yields collections of length 2 sourced from the
layer-0/layer-1 names. -/
theorem c8_collections_hardcoded_to_two_witness :
    ((ex_params.wq.length = 2 ∧ ex_params.wk.length = 2 ∧ ex_params.wv.length = 2 ∧
      ex_params.wo.length = 2 ∧ ex_params.w_up.length = 2 ∧ ex_params.w_gate.length = 2 ∧
      ex_params.w_down.length = 2 ∧ ex_params.rms_att_w.length = 2 ∧
      ex_params.rms_ffn_w.length = 2) ∧
    (∃ t0 t1, get_tensor ex_container name_q0 = some t0 ∧
      get_tensor ex_container name_q1 = some t1 ∧ ex_params.wq = [t0, t1])) :=
  c8_collections_hardcoded_to_two ex_container cfg2 ex_params (by decide)

/-- Counterexample to C8 as stated: with a configuration declaring 3 decoder
layers, the loaded wq collection still has exactly 2 entries, not 3. -/
theorem c8_counterexample :
    (from_safetensors ex_container cfg3).map (fun p => p.wq.length) = some 2 ∧
    cfg3.num_hidden_layers = 3 ∧ (2 : ℕ) ≠ 3 := by decide

/-- **C9** (corrected).  Model construction performs no shape validation at
all: any container in which the 20 required names resolve loads
successfully, whatever shapes the tensors carry, and the shape stored for
a weight is the container's shape verbatim — a config/shape mismatch is
not a load-time error. -/
theorem c9_no_shape_validation (st : List (String × RawTensor)) (cfg : LlamaConfigJson)
    (h : required_names.all (fun n => (get_tensor st n).isSome) = true) :
    (from_safetensors st cfg).isSome = true ∧
    (∀ p t, from_safetensors st cfg = some p → get_tensor st name_q0 = some t →
      (p.wq.getD 0 ⟨[], []⟩).shape = t.shape) := by
  constructor
  · simp only [required_names, List.all_cons, List.all_nil, Bool.and_eq_true,
      and_true] at h
    obtain ⟨hq0, hq1, hk0, hk1, hv0, hv1, ho0, ho1, hu0, hu1, hg0, hg1, hd0, hd1,
      ha0, ha1, hf0, hf1, hn, hl⟩ := h
    obtain ⟨q0, hq0⟩ := Option.isSome_iff_exists.mp hq0
    obtain ⟨q1, hq1⟩ := Option.isSome_iff_exists.mp hq1
    obtain ⟨k0, hk0⟩ := Option.isSome_iff_exists.mp hk0
    obtain ⟨k1, hk1⟩ := Option.isSome_iff_exists.mp hk1
    obtain ⟨v0, hv0⟩ := Option.isSome_iff_exists.mp hv0
    obtain ⟨v1, hv1⟩ := Option.isSome_iff_exists.mp hv1
    obtain ⟨o0, ho0⟩ := Option.isSome_iff_exists.mp ho0
    obtain ⟨o1, ho1⟩ := Option.isSome_iff_exists.mp ho1
    obtain ⟨u0, hu0⟩ := Option.isSome_iff_exists.mp hu0
    obtain ⟨u1, hu1⟩ := Option.isSome_iff_exists.mp hu1
    obtain ⟨g0, hg0⟩ := Option.isSome_iff_exists.mp hg0
    obtain ⟨g1, hg1⟩ := Option.isSome_iff_exists.mp hg1
    obtain ⟨d0, hd0⟩ := Option.isSome_iff_exists.mp hd0
    obtain ⟨d1, hd1⟩ := Option.isSome_iff_exists.mp hd1
    obtain ⟨a0, ha0⟩ := Option.isSome_iff_exists.mp ha0
    obtain ⟨a1, ha1⟩ := Option.isSome_iff_exists.mp ha1
    obtain ⟨f0, hf0⟩ := Option.isSome_iff_exists.mp hf0
    obtain ⟨f1, hf1⟩ := Option.isSome_iff_exists.mp hf1
    obtain ⟨nw, hn⟩ := Option.isSome_iff_exists.mp hn
    obtain ⟨lmh, hl⟩ := Option.isSome_iff_exists.mp hl
    have hA : load_attn st = some ([q0, q1], [k0, k1], [v0, v1], [o0, o1]) := by
      unfold load_attn
      rw [get_layer_pair_build st _ _ _ _ hq0 hq1, get_layer_pair_build st _ _ _ _ hk0 hk1,
        get_layer_pair_build st _ _ _ _ hv0 hv1, get_layer_pair_build st _ _ _ _ ho0 ho1]
      rfl
    have hF : load_ffn st =
        some ([u0, u1], [g0, g1], [d0, d1], [a0, a1], [f0, f1]) := by
      unfold load_ffn
      rw [get_layer_pair_build st _ _ _ _ hu0 hu1, get_layer_pair_build st _ _ _ _ hg0 hg1,
        get_layer_pair_build st _ _ _ _ hd0 hd1, get_layer_pair_build st _ _ _ _ ha0 ha1,
        get_layer_pair_build st _ _ _ _ hf0 hf1]
      rfl
    simp [from_safetensors, hA, hF, hn, hl]
  · intro p tq hp htq
    obtain ⟨wq, wk, wv, wo, wu, wg, wd, ra, rf, nw, lmh, h1, _, _, _, _, _, _, _, _,
      _, _, hpe⟩ := from_safetensors_some st cfg p hp
    subst hpe
    obtain ⟨q0, q1, hq0, hq1, hwq⟩ := get_layer_pair_some st _ _ _ h1
    subst hwq
    have : tq = q0 := (Option.some.inj (hq0.symm.trans htq)).symm
    subst this
    rfl

/-- Witness for C9's theorem: the concrete container with all 20 names
present loads successfully (its first conjunct at a concrete input). -/
theorem c9_no_shape_validation_witness :
    (from_safetensors ex_container cfg2).isSome = true :=
  (c9_no_shape_validation ex_container cfg2 (by decide)).1

/-- Counterexample to C9 as stated: a container whose layer-0 query weight
carries shape [5] — inconsistent with the configuration's
(query_heads × head_dim, hidden_dim) = [128, 128] — loads without any
error, and the bogus shape is stored untouched. -/
theorem c9_counterexample :
    (from_safetensors ex_container_bad cfg2).isSome = true ∧
    (from_safetensors ex_container_bad cfg2).map (fun p => (p.wq.getD 0 ⟨[], []⟩).shape) =
      some [5] ∧
    ([5] : List ℕ) ≠ [cfg2.num_attention_heads * (cfg2.hidden_size / cfg2.num_attention_heads),
      cfg2.hidden_size] := by decide

/-! ### Generation-loop lemmas and claims C2, C3, C4, C5, C6, C10 -/

theorem layer_forward_cache_len (t : TransOps) (m : Llama) (seq past total ng : ℕ)
    (residual : List ℚ) (cache : KVCache) (layer : ℕ) :
    ((layer_forward t m seq past total ng residual cache layer).2).len = cache.len := rfl

theorem foldl_layer_cache_len (t : TransOps) (m : Llama) (seq past total ng : ℕ) :
    ∀ (L : List ℕ) (st : List ℚ × KVCache),
      ((L.foldl (fun st layer => layer_forward t m seq past total ng st.1 st.2 layer)
        st).2).len = st.2.len := by
  intro L
  induction L with
  | nil => intro st; rfl
  | cons a L ih =>
    intro st
    rw [List.foldl_cons, ih]
    rfl

theorem layers_out_cache_len (t : TransOps) (m : Llama) (input : List ℕ)
    (cache : KVCache) :
    (layers_out t m input cache).2.len = cache.len + input.length := by
  simp only [layers_out]
  rw [foldl_layer_cache_len]
  rfl

theorem forward_cache_len (t : TransOps) (m : Llama) (input : List ℕ) (cache : KVCache) :
    (forward t m input cache).2.len = cache.len + input.length :=
  layers_out_cache_len t m input cache

theorem gen_loop_result (t : TransOps) (m : Llama) (s : Sampler) (top_p : ℚ)
    (top_k : ℕ) (temp : ℚ) :
    ∀ (fuel : ℕ) (input : List ℕ) (cache : KVCache) (result : List ℕ) (step : ℕ),
      ∃ rest, (gen_loop t m s top_p top_k temp fuel input cache result step).1 =
        result ++ rest ∧ m.eos_token_id ∉ rest := by
  intro fuel
  induction fuel with
  | zero =>
    intro input cache result step
    exact ⟨[], by simp [gen_loop], by simp⟩
  | succ fuel ih =>
    intro input cache result step
    simp only [gen_loop]
    by_cases hc : s step (forward t m input cache).1.data top_p top_k temp = m.eos_token_id
    · rw [if_pos hc]
      exact ⟨[], by simp, by simp⟩
    · rw [if_neg hc]
      obtain ⟨rest, hr, hni⟩ := ih [s step (forward t m input cache).1.data top_p top_k temp]
        (forward t m input cache).2
        (result ++ [s step (forward t m input cache).1.data top_p top_k temp]) (step + 1)
      refine ⟨s step (forward t m input cache).1.data top_p top_k temp :: rest, ?_, ?_⟩
      · rw [hr, List.append_assoc]
        rfl
      · intro hmem
        rcases List.mem_cons.mp hmem with he | he
        · exact hc he.symm
        · exact hni he

theorem ans_loop_eq_gen_loop (t : TransOps) (m : Llama) (s : Sampler) (top_p : ℚ)
    (top_k : ℕ) (temp : ℚ) :
    ∀ (fuel : ℕ) (input : List ℕ) (cache : KVCache) (result : List ℕ) (step : ℕ),
      ans_loop t m s top_p top_k temp fuel input cache result step =
        gen_loop t m s top_p top_k temp fuel input cache result step := by
  intro fuel
  induction fuel with
  | zero => intro input cache result step; rfl
  | succ fuel ih =>
    intro input cache result step
    simp only [ans_loop, gen_loop]
    by_cases hc : s step (forward t m input cache).1.data top_p top_k temp = m.eos_token_id
    · rw [if_pos hc, if_pos hc]
    · rw [if_neg hc, if_neg hc, ih]

theorem gen_inputs_loop_length (t : TransOps) (m : Llama) (s : Sampler) (top_p : ℚ)
    (top_k : ℕ) (temp : ℚ) :
    ∀ (fuel : ℕ) (input : List ℕ) (cache : KVCache) (step : ℕ),
      (gen_inputs_loop t m s top_p top_k temp fuel input cache step).length ≤ fuel := by
  intro fuel
  induction fuel with
  | zero => intro input cache step; simp [gen_inputs_loop]
  | succ fuel ih =>
    intro input cache step
    simp only [gen_inputs_loop, List.length_cons]
    by_cases hc : s step (forward t m input cache).1.data top_p top_k temp = m.eos_token_id
    · rw [if_pos hc]
      simp
    · rw [if_neg hc]
      have := ih [s step (forward t m input cache).1.data top_p top_k temp]
        (forward t m input cache).2 (step + 1)
      omega

theorem gen_inputs_loop_singletons (t : TransOps) (m : Llama) (s : Sampler) (top_p : ℚ)
    (top_k : ℕ) (temp : ℚ) :
    ∀ (fuel : ℕ) (tok : ℕ) (cache : KVCache) (step : ℕ) (l : List ℕ),
      l ∈ gen_inputs_loop t m s top_p top_k temp fuel [tok] cache step → l.length = 1 := by
  intro fuel
  induction fuel with
  | zero => intro tok cache step l hl; simp [gen_inputs_loop] at hl
  | succ fuel ih =>
    intro tok cache step l hl
    simp only [gen_inputs_loop] at hl
    rcases List.mem_cons.mp hl with he | he
    · rw [he]; rfl
    · by_cases hc : s step (forward t m [tok] cache).1.data top_p top_k temp = m.eos_token_id
      · rw [if_pos hc] at he
        simp at he
      · rw [if_neg hc] at he
        exact ih _ _ _ l he

theorem gen_inputs_loop_tail_singletons (t : TransOps) (m : Llama) (s : Sampler)
    (top_p : ℚ) (top_k : ℕ) (temp : ℚ) (fuel : ℕ) (input : List ℕ) (cache : KVCache)
    (step : ℕ) (l : List ℕ)
    (hl : l ∈ (gen_inputs_loop t m s top_p top_k temp fuel input cache step).drop 1) :
    l.length = 1 := by
  match fuel with
  | 0 => simp [gen_inputs_loop] at hl
  | fuel + 1 =>
    simp only [gen_inputs_loop, List.drop_succ_cons, List.drop_zero] at hl
    by_cases hc : s step (forward t m input cache).1.data top_p top_k temp = m.eos_token_id
    · rw [if_pos hc] at hl
      simp at hl
    · rw [if_neg hc] at hl
      exact gen_inputs_loop_singletons t m s top_p top_k temp fuel _ _ _ l hl

theorem gen_inputs_loop_head (t : TransOps) (m : Llama) (s : Sampler) (top_p : ℚ)
    (top_k : ℕ) (temp : ℚ) (fuel : ℕ) (input : List ℕ) (cache : KVCache) (step : ℕ)
    (h : 1 ≤ fuel) :
    (gen_inputs_loop t m s top_p top_k temp fuel input cache step).getD 0 [] = input := by
  match fuel with
  | 0 => omega
  | fuel + 1 => simp [gen_inputs_loop]

theorem length_one_singleton (l : List ℕ) (h : l.length = 1) : ∃ x, l = [x] := by
  match l, h with
  | [x], _ => exact ⟨x, rfl⟩

/-- **C2** (confirmed).  `forward` returns a tensor of shape (1, vocab) with
exactly `vocab` entries, and those entries are a function of the last input
position's hidden state only: any run of the layer stack agreeing on the
last residual row yields identical logits. -/
theorem c2_forward_last_position_logits (t : TransOps) (m : Llama) (input : List ℕ)
    (cache : KVCache) (_h : 1 ≤ input.length) :
    (forward t m input cache).1.shape = [1, m.vocab] ∧
    (forward t m input cache).1.data.length = m.vocab ∧
    (∀ (input' : List ℕ) (cache' : KVCache), input'.length = input.length →
      last_row (layers_out t m input' cache').1 input'.length m.d =
        last_row (layers_out t m input cache).1 input.length m.d →
      (forward t m input' cache').1.data = (forward t m input cache).1.data) := by
  refine ⟨rfl, ?_, ?_⟩
  · simp [forward, matmul_transb]
  · intro input' cache' hlen hlast
    simp only [forward]
    rw [hlast]

/-- Witness for C2's theorem at the concrete zero-layer model. -/
theorem c2_forward_last_position_logits_witness :
    (forward t_ex m_ex [5] (new_cache m_ex)).1.shape = [1, m_ex.vocab] ∧
    (forward t_ex m_ex [5] (new_cache m_ex)).1.data.length = m_ex.vocab :=
  ⟨(c2_forward_last_position_logits t_ex m_ex [5] (new_cache m_ex) (by decide)).1,
   (c2_forward_last_position_logits t_ex m_ex [5] (new_cache m_ex) (by decide)).2.1⟩

/-- **C3** (corrected).  `generate` performs at most `max_len` forward/sample
iterations, and the part of the result appended by the generation loop never
contains the eos id — the loop stops before appending it.  (The claim's
stronger reading fails because the prompt itself, reproduced verbatim at the
head of the result, may contain the eos id.) -/
theorem c3_generation_halts (t : TransOps) (m : Llama) (s : Sampler) (token_ids : List ℕ)
    (max_len : ℕ) (top_p : ℚ) (top_k : ℕ) (temperature : ℚ) :
    (generate_forward_inputs t m s token_ids max_len top_p top_k temperature).length ≤
      max_len ∧
    ∃ rest, generate t m s token_ids max_len top_p top_k temperature =
      token_ids ++ [m.bos_token_id] ++ rest ∧ m.eos_token_id ∉ rest := by
  constructor
  · exact gen_inputs_loop_length t m s top_p top_k temperature max_len token_ids _ 0
  · obtain ⟨rest, hr, hni⟩ := gen_loop_result t m s top_p top_k temperature max_len
      token_ids (KVCache.new m.n_layers m.max_seq_len (m.n_kv_h * m.dqkv) 0)
      (token_ids ++ [m.bos_token_id]) 0
    exact ⟨rest, by rw [generate, hr, List.append_assoc], hni⟩

/-- Counterexample to C3 as stated: a prompt containing the eos id is
reproduced at the head of the returned sequence, so the returned sequence
contains the eos id. -/
theorem c3_counterexample :
    m_ex.eos_token_id ∈ generate t_ex m_ex (sampler_c 9) [9] 1 1 1 1 := by decide

/-- **C4** (corrected).  `forward` advances the cache length by exactly the
size of its input; in both the generate loop and the answer loop every
iteration after the first passes a single token (and hence advances the
cache by exactly one before the next sample), while the first iteration
passes the whole prompt and advances the cache by the prompt's length. -/
theorem c4_cache_advance (t : TransOps) (m : Llama) (s : Sampler) (token_ids : List ℕ)
    (max_len : ℕ) (top_p : ℚ) (top_k : ℕ) (temperature : ℚ) (cache0 : KVCache) :
    (∀ (input : List ℕ) (cache : KVCache),
      (forward t m input cache).2.len = cache.len + input.length) ∧
    (∀ l ∈ (generate_forward_inputs t m s token_ids max_len top_p top_k
        temperature).drop 1, l.length = 1) ∧
    (∀ l ∈ (answer_forward_inputs t m s token_ids max_len top_p top_k temperature
        cache0).drop 1, l.length = 1) ∧
    (1 ≤ max_len →
      (generate_forward_inputs t m s token_ids max_len top_p top_k temperature).getD 0 [] =
        token_ids) := by
  refine ⟨fun input cache => forward_cache_len t m input cache, ?_, ?_, ?_⟩
  · intro l hl
    exact gen_inputs_loop_tail_singletons t m s top_p top_k temperature max_len
      token_ids _ 0 l hl
  · intro l hl
    exact gen_inputs_loop_tail_singletons t m s top_p top_k temperature max_len
      token_ids cache0 0 l hl
  · intro hm
    exact gen_inputs_loop_head t m s top_p top_k temperature max_len token_ids _ 0 hm

/-- Witness for C4's theorem at the concrete zero-layer model: the forward
increment at a length-1 input, the length-1 second loop input, and the
first input being the prompt. -/
theorem c4_cache_advance_witness :
    (forward t_ex m_ex [5] (new_cache m_ex)).2.len = (new_cache m_ex).len + 1 ∧
    ([6] : List ℕ).length = 1 ∧
    (generate_forward_inputs t_ex m_ex (sampler_c 6) [5] 2 1 1 1).getD 0 [] = [5] :=
  ⟨(c4_cache_advance t_ex m_ex (sampler_c 6) [5] 2 1 1 1 (new_cache m_ex)).1 [5]
      (new_cache m_ex),
   (c4_cache_advance t_ex m_ex (sampler_c 6) [5] 2 1 1 1 (new_cache m_ex)).2.1 [6]
      (by decide),
   (c4_cache_advance t_ex m_ex (sampler_c 6) [5] 2 1 1 1 (new_cache m_ex)).2.2.2
      (by decide)⟩

/-- Counterexample to C4 as stated: with a two-token prompt the first
iteration of the generate loop passes both tokens and advances the cache
length by 2, not 1. -/
theorem c4_counterexample :
    ((generate_forward_inputs t_ex m_ex (sampler_c 6) [5, 6] 1 1 1 1).getD 0 []).length = 2 ∧
    (forward t_ex m_ex [5, 6] (new_cache m_ex)).2.len = (new_cache m_ex).len + 2 ∧
    (2 : ℕ) ≠ 1 := by decide

/-- **C5** (corrected).  `generate` allocates a fresh cache of logical length
0 and seeds the RESULT with the prompt followed by the bos marker; but the
token sequence processed through the cache before the first sample is
exactly the prompt — the appended bos id is not among the tokens fed to
`forward`. -/
theorem c5_fresh_cache_prompt_processed (t : TransOps) (m : Llama) (s : Sampler)
    (token_ids : List ℕ) (max_len : ℕ) (top_p : ℚ) (top_k : ℕ) (temperature : ℚ)
    (h : 1 ≤ max_len) :
    (KVCache.new m.n_layers m.max_seq_len (m.n_kv_h * m.dqkv) 0).len = 0 ∧
    (generate_forward_inputs t m s token_ids max_len top_p top_k temperature).getD 0 [] =
      token_ids ∧
    ∃ rest, generate t m s token_ids max_len top_p top_k temperature =
      (token_ids ++ [m.bos_token_id]) ++ rest := by
  refine ⟨rfl, gen_inputs_loop_head t m s top_p top_k temperature max_len token_ids _ 0 h, ?_⟩
  obtain ⟨rest, hr, _⟩ := gen_loop_result t m s top_p top_k temperature max_len
    token_ids (KVCache.new m.n_layers m.max_seq_len (m.n_kv_h * m.dqkv) 0)
    (token_ids ++ [m.bos_token_id]) 0
  exact ⟨rest, by rw [generate, hr]⟩

/-- Witness for C5's theorem at the concrete zero-layer model. -/
theorem c5_fresh_cache_prompt_processed_witness :
    (KVCache.new m_ex.n_layers m_ex.max_seq_len (m_ex.n_kv_h * m_ex.dqkv) 0).len = 0 ∧
    (generate_forward_inputs t_ex m_ex (sampler_c 6) [5] 2 1 1 1).getD 0 [] = [5] :=
  ⟨(c5_fresh_cache_prompt_processed t_ex m_ex (sampler_c 6) [5] 2 1 1 1 (by decide)).1,
   (c5_fresh_cache_prompt_processed t_ex m_ex (sampler_c 6) [5] 2 1 1 1 (by decide)).2.1⟩

/-- Counterexample to C5 as stated: the sequence processed through the cache
before the first sample is the bare prompt [5], which differs from the
prompt together with the bos id. -/
theorem c5_counterexample :
    (generate_forward_inputs t_ex m_ex (sampler_c 6) [5] 2 1 1 1).getD 0 [] = [5] ∧
    ([5] : List ℕ) ≠ [5] ++ [m_ex.bos_token_id] := by decide

/-- **C6** (confirmed).  `answer` on a freshly created empty cache computes
exactly the same result as `generate` with the same arguments and the same
sampling draws; the entry points differ only in where the cache comes from. -/
theorem c6_answer_fresh_cache_eq_generate (t : TransOps) (m : Llama) (s : Sampler)
    (token_ids : List ℕ) (max_len : ℕ) (top_p : ℚ) (top_k : ℕ) (temperature : ℚ) :
    (answer t m s token_ids max_len top_p top_k temperature (new_cache m)).1 =
      generate t m s token_ids max_len top_p top_k temperature := by
  unfold answer generate new_cache
  rw [ans_loop_eq_gen_loop]

/-- **C10** (corrected).  In both `generate` and `answer` (the latter
against an arbitrary caller-supplied cache), the returned vector begins
with the input tokens unchanged followed immediately by the bos id, and
the bos id appended at seeding is not fed to the model: the first forward
call receives exactly the original tokens.  All later forward inputs of
either loop are single sampled tokens — which may, however, coincide with
the bos id, so a token equal to bos_token_id can appear in a forward
input. -/
theorem c10_bos_not_fed (t : TransOps) (m : Llama) (s : Sampler) (token_ids : List ℕ)
    (max_len : ℕ) (top_p : ℚ) (top_k : ℕ) (temperature : ℚ) (cache0 : KVCache)
    (h : 1 ≤ max_len) :
    (generate_forward_inputs t m s token_ids max_len top_p top_k temperature).getD 0 [] =
      token_ids ∧
    (∃ rest, generate t m s token_ids max_len top_p top_k temperature =
      token_ids ++ [m.bos_token_id] ++ rest) ∧
    (∀ l ∈ (generate_forward_inputs t m s token_ids max_len top_p top_k
        temperature).drop 1, ∃ tok, l = [tok]) ∧
    (answer_forward_inputs t m s token_ids max_len top_p top_k temperature
        cache0).getD 0 [] = token_ids ∧
    (∃ rest, (answer t m s token_ids max_len top_p top_k temperature cache0).1 =
      token_ids ++ [m.bos_token_id] ++ rest) ∧
    (∀ l ∈ (answer_forward_inputs t m s token_ids max_len top_p top_k temperature
        cache0).drop 1, ∃ tok, l = [tok]) := by
  refine ⟨gen_inputs_loop_head t m s top_p top_k temperature max_len token_ids _ 0 h,
    ?_, ?_, gen_inputs_loop_head t m s top_p top_k temperature max_len token_ids cache0 0 h,
    ?_, ?_⟩
  · obtain ⟨rest, hr, _⟩ := gen_loop_result t m s top_p top_k temperature max_len
      token_ids (KVCache.new m.n_layers m.max_seq_len (m.n_kv_h * m.dqkv) 0)
      (token_ids ++ [m.bos_token_id]) 0
    exact ⟨rest, by rw [generate, hr, List.append_assoc]⟩
  · intro l hl
    exact length_one_singleton l
      (gen_inputs_loop_tail_singletons t m s top_p top_k temperature max_len
        token_ids _ 0 l hl)
  · obtain ⟨rest, hr, _⟩ := gen_loop_result t m s top_p top_k temperature max_len
      token_ids cache0 (token_ids ++ [m.bos_token_id]) 0
    exact ⟨rest, by rw [answer, ans_loop_eq_gen_loop, hr, List.append_assoc]⟩
  · intro l hl
    exact length_one_singleton l
      (gen_inputs_loop_tail_singletons t m s top_p top_k temperature max_len
        token_ids cache0 0 l hl)

/-- Witness for C10's theorem at the concrete zero-layer model, covering
both entry points. -/
theorem c10_bos_not_fed_witness :
    (generate_forward_inputs t_ex m_ex (sampler_c 6) [5] 2 1 1 1).getD 0 [] = [5] ∧
    (∃ rest, generate t_ex m_ex (sampler_c 6) [5] 2 1 1 1 =
      [5] ++ [m_ex.bos_token_id] ++ rest) ∧
    (answer_forward_inputs t_ex m_ex (sampler_c 6) [5] 2 1 1 1
        (new_cache m_ex)).getD 0 [] = [5] ∧
    (∃ rest, (answer t_ex m_ex (sampler_c 6) [5] 2 1 1 1 (new_cache m_ex)).1 =
      [5] ++ [m_ex.bos_token_id] ++ rest) :=
  ⟨(c10_bos_not_fed t_ex m_ex (sampler_c 6) [5] 2 1 1 1 (new_cache m_ex) (by decide)).1,
   (c10_bos_not_fed t_ex m_ex (sampler_c 6) [5] 2 1 1 1 (new_cache m_ex) (by decide)).2.1,
   (c10_bos_not_fed t_ex m_ex (sampler_c 6) [5] 2 1 1 1 (new_cache m_ex) (by decide)).2.2.2.1,
   (c10_bos_not_fed t_ex m_ex (sampler_c 6) [5] 2 1 1 1 (new_cache m_ex) (by decide)).2.2.2.2.1⟩

/-- Counterexample to C10 as stated: when a sampling draw returns the bos id
(which differs from the eos id), the next loop iteration passes it to
`forward`, so the bos token id does occur in an input passed to `forward`. -/
theorem c10_counterexample :
    (generate_forward_inputs t_ex m_ex (sampler_c 7) [5] 2 1 1 1).length = 2 ∧
    m_ex.bos_token_id ∈ (generate_forward_inputs t_ex m_ex (sampler_c 7) [5] 2 1 1 1).getD 1 [] := by
  decide

/-! ### Loop-write machinery for claim C1 -/

theorem set_getD_same : ∀ (l : List ℚ) (i : ℕ) (a : ℚ), i < l.length →
    (l.set i a).getD i 0 = a := by
  intro l
  induction l with
  | nil => intro i a h; simp at h
  | cons x xs ih =>
    intro i a h
    match i with
    | 0 => rfl
    | i + 1 => exact ih i a (by simpa using h)

theorem set_getD_other : ∀ (l : List ℚ) (i : ℕ) (a : ℚ) (j : ℕ), j ≠ i →
    (l.set i a).getD j 0 = l.getD j 0 := by
  intro l
  induction l with
  | nil => intro i a j _; rfl
  | cons x xs ih =>
    intro i a j hne
    match i, j with
    | 0, 0 => exact absurd rfl hne
    | 0, j + 1 => rfl
    | i + 1, 0 => rfl
    | i + 1, j + 1 => exact ih i a j (fun he => hne (by rw [he]))

theorem foldl_write_length (g : List ℚ → ℕ → List ℚ)
    (hlen : ∀ st i, (g st i).length = st.length) :
    ∀ (n : ℕ) (st : List ℚ), ((List.range n).foldl g st).length = st.length := by
  intro n
  induction n with
  | zero => intro st; rfl
  | succ n ih =>
    intro st
    rw [List.range_succ, List.foldl_append, List.foldl_cons, List.foldl_nil, hlen, ih]

theorem foldl_write_getD_out (g : List ℚ → ℕ → List ℚ) (W : ℕ → ℕ → Prop) (n : ℕ)
    (hout : ∀ st i j, i < n → ¬ W i j → (g st i).getD j 0 = st.getD j 0) :
    ∀ (st : List ℚ) (j : ℕ), (∀ i, i < n → ¬ W i j) →
      ((List.range n).foldl g st).getD j 0 = st.getD j 0 := by
  have aux : ∀ (m : ℕ), m ≤ n → ∀ (st : List ℚ) (j : ℕ), (∀ i, i < m → ¬ W i j) →
      ((List.range m).foldl g st).getD j 0 = st.getD j 0 := by
    intro m
    induction m with
    | zero => intro _ st j _; rfl
    | succ m ih =>
      intro hmn st j hj
      rw [List.range_succ, List.foldl_append, List.foldl_cons, List.foldl_nil,
        hout _ m j (by omega) (hj m (Nat.lt_succ_self m)),
        ih (by omega) st j (fun i hi => hj i (by omega))]
  exact aux n (Nat.le_refl n)

theorem foldl_write_getD (g : List ℚ → ℕ → List ℚ) (W : ℕ → ℕ → Prop) (F : ℕ → ℕ → ℚ)
    (n : ℕ)
    (hlen : ∀ st i, (g st i).length = st.length)
    (hout : ∀ st i j, i < n → ¬ W i j → (g st i).getD j 0 = st.getD j 0)
    (hin : ∀ st i j, i < n → W i j → j < st.length → (g st i).getD j 0 = F i j)
    (hdisj : ∀ i i' j, i < n → i' < n → i ≠ i' → W i j → ¬ W i' j) :
    ∀ (st : List ℚ) (i j : ℕ), i < n → W i j → j < st.length →
      ((List.range n).foldl g st).getD j 0 = F i j := by
  have aux : ∀ (m : ℕ), m ≤ n → ∀ (st : List ℚ) (i j : ℕ), i < m → W i j →
      j < st.length → ((List.range m).foldl g st).getD j 0 = F i j := by
    intro m
    induction m with
    | zero => intro _ st i j hi _ _; exact absurd hi (Nat.not_lt_zero i)
    | succ m ih =>
      intro hmn st i j hi hw hj
      rw [List.range_succ, List.foldl_append, List.foldl_cons, List.foldl_nil]
      by_cases hin2 : i = m
      · subst hin2
        exact hin _ i j (by omega) hw (by rw [foldl_write_length g hlen i st]; exact hj)
      · have hi' : i < m := by omega
        rw [hout _ m j (by omega) (hdisj i m j (by omega) (by omega) hin2 hw),
          ih (by omega) st i j hi' hw hj]
  exact aux n (Nat.le_refl n)

theorem lt_block (a b r n : ℕ) (ha : a < n) (hr : r < b) : a * b + r < n * b := by
  have h1 : (a + 1) * b = a * b + b := by ring
  have h2 : (a + 1) * b ≤ n * b := Nat.mul_le_mul_right b ha
  omega

theorem block_mod (a b r : ℕ) (hr : r < b) : (a * b + r) % b = r := by
  rw [Nat.mul_comm, Nat.mul_add_mod, Nat.mod_eq_of_lt hr]

theorem block_div (a b r : ℕ) (hr : r < b) : (a * b + r) / b = a := by
  have hb : 0 < b := by omega
  rw [Nat.mul_comm, Nat.mul_add_div hb, Nat.div_eq_of_lt hr, Nat.add_zero]

theorem mul_add_lt_inj (d a r a' r' : ℕ) (hr : r < d) (hr' : r' < d)
    (h : a * d + r = a' * d + r') : a = a' ∧ r = r' := by
  have ha : a = a' := by
    have e1 : (a * d + r) / d = a := block_div a d r hr
    have e2 : (a' * d + r') / d = a' := block_div a' d r' hr'
    rw [← e1, h, e2]
  refine ⟨ha, ?_⟩
  subst ha
  omega

theorem att_idx_expand_kp (ng s tt kvh g qp kp : ℕ) :
    att_idx ng s tt kvh g qp kp = (kvh * ng * s + g * s + qp) * tt + kp := by
  unfold att_idx; ring

theorem att_idx_expand_qp (ng s tt kvh g qp kp : ℕ) :
    att_idx ng s tt kvh g qp kp = (kvh * ng + g) * (s * tt) + (qp * tt + kp) := by
  unfold att_idx; ring

theorem att_idx_expand_g (ng s tt kvh g qp kp : ℕ) :
    att_idx ng s tt kvh g qp kp =
      kvh * (ng * (s * tt)) + (g * (s * tt) + (qp * tt + kp)) := by
  unfold att_idx; ring

theorem att_idx_mod_total (ng s tt kvh g qp kp : ℕ) (hkp : kp < tt) :
    att_idx ng s tt kvh g qp kp % tt = kp := by
  rw [att_idx_expand_kp, block_mod _ _ _ hkp]

theorem att_idx_div_row (ng s tt kvh g qp kp : ℕ) (hqp : qp < s) (hkp : kp < tt) :
    att_idx ng s tt kvh g qp kp % (s * tt) / tt = qp := by
  rw [att_idx_expand_qp, block_mod _ _ _ (lt_block qp tt kp s hqp hkp),
    block_div _ _ _ hkp]

theorem att_idx_div_head (ng s tt kvh g qp kp : ℕ) (hg : g < ng) (hqp : qp < s)
    (hkp : kp < tt) :
    att_idx ng s tt kvh g qp kp % (ng * (s * tt)) / (s * tt) = g := by
  rw [att_idx_expand_g,
    block_mod _ _ _ (lt_block g (s * tt) (qp * tt + kp) ng hg (lt_block qp tt kp s hqp hkp)),
    block_div _ _ _ (lt_block qp tt kp s hqp hkp)]

theorem att_idx_lt (nkvh ng s tt kvh g qp kp : ℕ) (h1 : kvh < nkvh) (h2 : g < ng)
    (h3 : qp < s) (h4 : kp < tt) :
    att_idx ng s tt kvh g qp kp < nkvh * ng * s * tt := by
  have hb := lt_block kvh (ng * (s * tt)) (g * (s * tt) + (qp * tt + kp)) nkvh h1
    (lt_block g (s * tt) (qp * tt + kp) ng h2 (lt_block qp tt kp s h3 h4))
  have e1 := att_idx_expand_g ng s tt kvh g qp kp
  have e2 : nkvh * (ng * (s * tt)) = nkvh * ng * s * tt := by ring
  omega

theorem att_idx_inj_qp (ng s tt kvh g qp qp' kp kp' : ℕ) (hkp : kp < tt) (hkp' : kp' < tt)
    (h : att_idx ng s tt kvh g qp kp = att_idx ng s tt kvh g qp' kp') :
    qp = qp' ∧ kp = kp' := by
  rw [att_idx_expand_kp, att_idx_expand_kp] at h
  obtain ⟨h1, h2⟩ := mul_add_lt_inj tt _ _ _ _ hkp hkp' h
  exact ⟨Nat.add_left_cancel h1, h2⟩

theorem att_idx_inj_g (ng s tt kvh g g' qp qp' kp kp' : ℕ) (hqp : qp < s) (hkp : kp < tt)
    (hqp' : qp' < s) (hkp' : kp' < tt)
    (h : att_idx ng s tt kvh g qp kp = att_idx ng s tt kvh g' qp' kp') : g = g' := by
  rw [att_idx_expand_qp, att_idx_expand_qp] at h
  obtain ⟨h1, _⟩ := mul_add_lt_inj (s * tt) _ _ _ _
    (lt_block qp tt kp s hqp hkp) (lt_block qp' tt kp' s hqp' hkp') h
  exact Nat.add_left_cancel h1

theorem att_idx_inj_kvh (ng s tt kvh kvh' g g' qp qp' kp kp' : ℕ) (hg : g < ng)
    (hqp : qp < s) (hkp : kp < tt) (hg' : g' < ng) (hqp' : qp' < s) (hkp' : kp' < tt)
    (h : att_idx ng s tt kvh g qp kp = att_idx ng s tt kvh' g' qp' kp') : kvh = kvh' := by
  rw [att_idx_expand_g, att_idx_expand_g] at h
  exact (mul_add_lt_inj (ng * (s * tt)) _ _ _ _
    (lt_block g (s * tt) (qp * tt + kp) ng hg (lt_block qp tt kp s hqp hkp))
    (lt_block g' (s * tt) (qp' * tt + kp') ng hg' (lt_block qp' tt kp' s hqp' hkp')) h).1

theorem score_kp_loop_length (t : TransOps) (q k : List ℚ)
    (nkvh ng s tt dqkv kvh g qp : ℕ) (att : List ℚ) :
    (score_kp_loop t q k nkvh ng s tt dqkv kvh g qp att).length = att.length := by
  unfold score_kp_loop
  exact foldl_write_length _ (fun st i => by simp) tt att

theorem score_kp_loop_getD_out (t : TransOps) (q k : List ℚ)
    (nkvh ng s tt dqkv kvh g qp : ℕ) (att : List ℚ) (j : ℕ)
    (hj : ∀ kp2, kp2 < tt → j ≠ att_idx ng s tt kvh g qp kp2) :
    (score_kp_loop t q k nkvh ng s tt dqkv kvh g qp att).getD j 0 = att.getD j 0 := by
  unfold score_kp_loop
  exact foldl_write_getD_out _ (fun kp2 j2 => j2 = att_idx ng s tt kvh g qp kp2) tt
    (fun st i j2 _ hn => set_getD_other st _ _ j2 hn) att j hj

theorem score_kp_loop_getD (t : TransOps) (q k : List ℚ)
    (nkvh ng s tt dqkv kvh g qp kp : ℕ) (att : List ℚ)
    (hkp : kp < tt) (hidx : att_idx ng s tt kvh g qp kp < att.length) :
    (score_kp_loop t q k nkvh ng s tt dqkv kvh g qp att).getD
      (att_idx ng s tt kvh g qp kp) 0 = attn_score t q k nkvh ng dqkv kvh g qp kp := by
  unfold score_kp_loop
  refine foldl_write_getD _ (fun kp2 j => j = att_idx ng s tt kvh g qp kp2)
    (fun kp2 _ => attn_score t q k nkvh ng dqkv kvh g qp kp2) tt
    (fun st i => by simp) ?_ ?_ ?_ att kp _ hkp rfl hidx
  · intro st i j _ hn
    exact set_getD_other st _ _ j hn
  · intro st i j _ hw hj
    subst hw
    exact set_getD_same st _ _ hj
  · intro i i' j _ _ hne hw hw'
    have h2 := hw.symm.trans hw'
    unfold att_idx at h2
    exact hne (Nat.add_left_cancel h2)

theorem score_qp_loop_length (t : TransOps) (q k : List ℚ)
    (nkvh ng s tt dqkv kvh g : ℕ) (att : List ℚ) :
    (score_qp_loop t q k nkvh ng s tt dqkv kvh g att).length = att.length := by
  unfold score_qp_loop
  exact foldl_write_length _
    (fun st i => score_kp_loop_length t q k nkvh ng s tt dqkv kvh g i st) s att

theorem score_qp_loop_getD_out (t : TransOps) (q k : List ℚ)
    (nkvh ng s tt dqkv kvh g : ℕ) (att : List ℚ) (j : ℕ)
    (hj : ∀ qp2 kp2, qp2 < s → kp2 < tt → j ≠ att_idx ng s tt kvh g qp2 kp2) :
    (score_qp_loop t q k nkvh ng s tt dqkv kvh g att).getD j 0 = att.getD j 0 := by
  unfold score_qp_loop
  exact foldl_write_getD_out _
    (fun qp2 j2 => ∃ kp2, kp2 < tt ∧ j2 = att_idx ng s tt kvh g qp2 kp2) s
    (fun st i j2 _ hn => score_kp_loop_getD_out t q k nkvh ng s tt dqkv kvh g i st j2
      (fun kp2 hkp2 hne => hn ⟨kp2, hkp2, hne⟩)) att j
    (fun i hi hw => hw.elim (fun kp2 hkp2 => hj i kp2 hi hkp2.1 hkp2.2))

theorem score_qp_loop_getD (t : TransOps) (q k : List ℚ)
    (nkvh ng s tt dqkv kvh g qp kp : ℕ) (att : List ℚ)
    (hqp : qp < s) (hkp : kp < tt) (hidx : att_idx ng s tt kvh g qp kp < att.length) :
    (score_qp_loop t q k nkvh ng s tt dqkv kvh g att).getD
      (att_idx ng s tt kvh g qp kp) 0 = attn_score t q k nkvh ng dqkv kvh g qp kp := by
  unfold score_qp_loop
  have main := foldl_write_getD _
    (fun qp2 j => ∃ kp2, kp2 < tt ∧ j = att_idx ng s tt kvh g qp2 kp2)
    (fun qp2 j => attn_score t q k nkvh ng dqkv kvh g qp2 (j % tt)) s
    (fun st i => score_kp_loop_length t q k nkvh ng s tt dqkv kvh g i st)
    (fun st i j _ hn => score_kp_loop_getD_out t q k nkvh ng s tt dqkv kvh g i st j
      (fun kp2 hkp2 hne => hn ⟨kp2, hkp2, hne⟩))
    (fun st i j _ hw hjlen => by
      obtain ⟨kp2, hkp2, he⟩ := hw
      subst he
      rw [score_kp_loop_getD t q k nkvh ng s tt dqkv kvh g i kp2 st hkp2 hjlen]
      simp only [att_idx_mod_total ng s tt kvh g i kp2 hkp2])
    (fun i i' j _ _ hne hw hw' => by
      obtain ⟨kp2, hkp2, he⟩ := hw
      obtain ⟨kp2', hkp2', he'⟩ := hw'
      exact hne (att_idx_inj_qp ng s tt kvh g i i' kp2 kp2' hkp2 hkp2'
        (he.symm.trans he')).1)
    att qp _ hqp ⟨kp, hkp, rfl⟩ hidx
  rw [main]
  simp only [att_idx_mod_total ng s tt kvh g qp kp hkp]

theorem score_g_loop_length (t : TransOps) (q k : List ℚ)
    (nkvh ng s tt dqkv kvh : ℕ) (att : List ℚ) :
    (score_g_loop t q k nkvh ng s tt dqkv kvh att).length = att.length := by
  unfold score_g_loop
  exact foldl_write_length _
    (fun st i => score_qp_loop_length t q k nkvh ng s tt dqkv kvh i st) ng att

theorem score_g_loop_getD_out (t : TransOps) (q k : List ℚ)
    (nkvh ng s tt dqkv kvh : ℕ) (att : List ℚ) (j : ℕ)
    (hj : ∀ g2 qp2 kp2, g2 < ng → qp2 < s → kp2 < tt →
      j ≠ att_idx ng s tt kvh g2 qp2 kp2) :
    (score_g_loop t q k nkvh ng s tt dqkv kvh att).getD j 0 = att.getD j 0 := by
  unfold score_g_loop
  exact foldl_write_getD_out _
    (fun g2 j2 => ∃ qp2 kp2, qp2 < s ∧ kp2 < tt ∧ j2 = att_idx ng s tt kvh g2 qp2 kp2) ng
    (fun st i j2 _ hn => score_qp_loop_getD_out t q k nkvh ng s tt dqkv kvh i st j2
      (fun qp2 kp2 hqp2 hkp2 hne => hn ⟨qp2, kp2, hqp2, hkp2, hne⟩)) att j
    (fun i hi hw => hw.elim (fun qp2 h2 => h2.elim
      (fun kp2 h3 => hj i qp2 kp2 hi h3.1 h3.2.1 h3.2.2)))

theorem score_g_loop_getD (t : TransOps) (q k : List ℚ)
    (nkvh ng s tt dqkv kvh g qp kp : ℕ) (att : List ℚ)
    (hg : g < ng) (hqp : qp < s) (hkp : kp < tt)
    (hidx : att_idx ng s tt kvh g qp kp < att.length) :
    (score_g_loop t q k nkvh ng s tt dqkv kvh att).getD
      (att_idx ng s tt kvh g qp kp) 0 = attn_score t q k nkvh ng dqkv kvh g qp kp := by
  unfold score_g_loop
  have main := foldl_write_getD _
    (fun g2 j => ∃ qp2 kp2, qp2 < s ∧ kp2 < tt ∧ j = att_idx ng s tt kvh g2 qp2 kp2)
    (fun g2 j => attn_score t q k nkvh ng dqkv kvh g2 (j % (s * tt) / tt) (j % tt)) ng
    (fun st i => score_qp_loop_length t q k nkvh ng s tt dqkv kvh i st)
    (fun st i j _ hn => score_qp_loop_getD_out t q k nkvh ng s tt dqkv kvh i st j
      (fun qp2 kp2 hqp2 hkp2 hne => hn ⟨qp2, kp2, hqp2, hkp2, hne⟩))
    (fun st i j _ hw hjlen => by
      obtain ⟨qp2, kp2, hqp2, hkp2, he⟩ := hw
      subst he
      rw [score_qp_loop_getD t q k nkvh ng s tt dqkv kvh i qp2 kp2 st hqp2 hkp2 hjlen]
      simp only [att_idx_div_row ng s tt kvh i qp2 kp2 hqp2 hkp2,
        att_idx_mod_total ng s tt kvh i qp2 kp2 hkp2])
    (fun i i' j _ _ hne hw hw' => by
      obtain ⟨qp2, kp2, hqp2, hkp2, he⟩ := hw
      obtain ⟨qp2', kp2', hqp2', hkp2', he'⟩ := hw'
      exact hne (att_idx_inj_g ng s tt kvh i i' qp2 qp2' kp2 kp2' hqp2 hkp2 hqp2' hkp2'
        (he.symm.trans he')))
    att g _ hg ⟨qp, kp, hqp, hkp, rfl⟩ hidx
  rw [main]
  simp only [att_idx_div_row ng s tt kvh g qp kp hqp hkp,
    att_idx_mod_total ng s tt kvh g qp kp hkp]

theorem attention_scores_getD (t : TransOps) (q k : List ℚ)
    (nkvh ng s tt dqkv : ℕ) (att : List ℚ) (kvh g qp kp : ℕ)
    (h1 : kvh < nkvh) (h2 : g < ng) (h3 : qp < s) (h4 : kp < tt)
    (hidx : att_idx ng s tt kvh g qp kp < att.length) :
    (attention_scores t q k nkvh ng s tt dqkv att).getD
      (att_idx ng s tt kvh g qp kp) 0 = attn_score t q k nkvh ng dqkv kvh g qp kp := by
  unfold attention_scores
  have main := foldl_write_getD _
    (fun kvh2 j => ∃ g2 qp2 kp2, g2 < ng ∧ qp2 < s ∧ kp2 < tt ∧
      j = att_idx ng s tt kvh2 g2 qp2 kp2)
    (fun kvh2 j => attn_score t q k nkvh ng dqkv kvh2 (j % (ng * (s * tt)) / (s * tt))
      (j % (s * tt) / tt) (j % tt)) nkvh
    (fun st i => score_g_loop_length t q k nkvh ng s tt dqkv i st)
    (fun st i j _ hn => score_g_loop_getD_out t q k nkvh ng s tt dqkv i st j
      (fun g2 qp2 kp2 hg2 hqp2 hkp2 hne => hn ⟨g2, qp2, kp2, hg2, hqp2, hkp2, hne⟩))
    (fun st i j _ hw hjlen => by
      obtain ⟨g2, qp2, kp2, hg2, hqp2, hkp2, he⟩ := hw
      subst he
      rw [score_g_loop_getD t q k nkvh ng s tt dqkv i g2 qp2 kp2 st hg2 hqp2 hkp2 hjlen]
      simp only [att_idx_div_head ng s tt i g2 qp2 kp2 hg2 hqp2 hkp2,
        att_idx_div_row ng s tt i g2 qp2 kp2 hqp2 hkp2,
        att_idx_mod_total ng s tt i g2 qp2 kp2 hkp2])
    (fun i i' j _ _ hne hw hw' => by
      obtain ⟨g2, qp2, kp2, hg2, hqp2, hkp2, he⟩ := hw
      obtain ⟨g2', qp2', kp2', hg2', hqp2', hkp2', he'⟩ := hw'
      exact hne (att_idx_inj_kvh ng s tt i i' g2 g2' qp2 qp2' kp2 kp2' hg2 hqp2 hkp2
        hg2' hqp2' hkp2' (he.symm.trans he')))
    att kvh _ h1 ⟨g, qp, kp, h2, h3, h4, rfl⟩ hidx
  rw [main]
  simp only [att_idx_div_head ng s tt kvh g qp kp h2 h3 h4,
    att_idx_div_row ng s tt kvh g qp kp h3 h4, att_idx_mod_total ng s tt kvh g qp kp h4]

theorem h_idx_expand_d (nkvh ng dq qp qh d : ℕ) :
    h_idx nkvh ng dq qp qh d = (qp * (nkvh * ng) + qh) * dq + d := by
  unfold h_idx; ring

theorem h_idx_expand_qp (nkvh ng dq qp qh d : ℕ) :
    h_idx nkvh ng dq qp qh d = qp * (nkvh * ng * dq) + (qh * dq + d) := by
  unfold h_idx; ring

theorem qh_lt (nkvh ng kvh g : ℕ) (h1 : kvh < nkvh) (h2 : g < ng) :
    kvh * ng + g < nkvh * ng :=
  lt_block kvh ng g nkvh h1 h2

theorem h_idx_mod_dq (nkvh ng dq qp qh d : ℕ) (hd : d < dq) :
    h_idx nkvh ng dq qp qh d % dq = d := by
  rw [h_idx_expand_d, block_mod _ _ _ hd]

theorem h_idx_div_H (nkvh ng dq qp qh d : ℕ) (hqh : qh < nkvh * ng) (hd : d < dq) :
    h_idx nkvh ng dq qp qh d / (nkvh * ng * dq) = qp := by
  rw [h_idx_expand_qp, block_div _ _ _ (lt_block qh dq d (nkvh * ng) hqh hd)]

theorem h_idx_modH_div_dq (nkvh ng dq qp qh d : ℕ) (hqh : qh < nkvh * ng) (hd : d < dq) :
    h_idx nkvh ng dq qp qh d % (nkvh * ng * dq) / dq = qh := by
  rw [h_idx_expand_qp, block_mod _ _ _ (lt_block qh dq d (nkvh * ng) hqh hd),
    block_div _ _ _ hd]

theorem h_idx_lt (nkvh ng dq s qp qh d : ℕ) (hqp : qp < s) (hqh : qh < nkvh * ng)
    (hd : d < dq) : h_idx nkvh ng dq qp qh d < s * (nkvh * ng * dq) := by
  have hb := lt_block qp (nkvh * ng * dq) (qh * dq + d) s hqp
    (lt_block qh dq d (nkvh * ng) hqh hd)
  have e := h_idx_expand_qp nkvh ng dq qp qh d
  omega

theorem h_idx_inj_qp (nkvh ng dq qp qp' qh d d' : ℕ) (hqh : qh < nkvh * ng)
    (hd : d < dq) (hd' : d' < dq)
    (h : h_idx nkvh ng dq qp qh d = h_idx nkvh ng dq qp' qh d') : qp = qp' ∧ d = d' := by
  rw [h_idx_expand_qp, h_idx_expand_qp] at h
  obtain ⟨h1, h2⟩ := mul_add_lt_inj (nkvh * ng * dq) _ _ _ _
    (lt_block qh dq d (nkvh * ng) hqh hd) (lt_block qh dq d' (nkvh * ng) hqh hd') h
  exact ⟨h1, by omega⟩

theorem h_idx_inj_g (nkvh ng dq kvh g g' qp qp' d d' : ℕ) (h1 : kvh < nkvh)
    (hg : g < ng) (hg' : g' < ng) (hd : d < dq) (hd' : d' < dq)
    (h : h_idx nkvh ng dq qp (kvh * ng + g) d = h_idx nkvh ng dq qp' (kvh * ng + g') d') :
    g = g' := by
  rw [h_idx_expand_qp, h_idx_expand_qp] at h
  obtain ⟨_, h2⟩ := mul_add_lt_inj (nkvh * ng * dq) _ _ _ _
    (lt_block _ dq d (nkvh * ng) (qh_lt nkvh ng kvh g h1 hg) hd)
    (lt_block _ dq d' (nkvh * ng) (qh_lt nkvh ng kvh g' h1 hg') hd') h
  obtain ⟨h3, _⟩ := mul_add_lt_inj dq _ _ _ _ hd hd' h2
  exact Nat.add_left_cancel h3

theorem h_idx_inj_kvh (nkvh ng dq kvh kvh' g g' qp qp' d d' : ℕ) (h1 : kvh < nkvh)
    (h1' : kvh' < nkvh) (hg : g < ng) (hg' : g' < ng) (hd : d < dq) (hd' : d' < dq)
    (h : h_idx nkvh ng dq qp (kvh * ng + g) d = h_idx nkvh ng dq qp' (kvh' * ng + g') d') :
    kvh = kvh' := by
  rw [h_idx_expand_qp, h_idx_expand_qp] at h
  obtain ⟨_, h2⟩ := mul_add_lt_inj (nkvh * ng * dq) _ _ _ _
    (lt_block _ dq d (nkvh * ng) (qh_lt nkvh ng kvh g h1 hg) hd)
    (lt_block _ dq d' (nkvh * ng) (qh_lt nkvh ng kvh' g' h1' hg') hd') h
  obtain ⟨h3, _⟩ := mul_add_lt_inj dq _ _ _ _ hd hd' h2
  exact (mul_add_lt_inj ng _ _ _ _ hg hg' h3).1

theorem out_d_loop_length (att v : List ℚ) (nkvh ng s tt dq kvh g qp : ℕ)
    (hid : List ℚ) :
    (out_d_loop att v nkvh ng s tt dq kvh g qp hid).length = hid.length := by
  unfold out_d_loop
  exact foldl_write_length _ (fun st i => by simp) dq hid

theorem out_d_loop_getD_out (att v : List ℚ) (nkvh ng s tt dq kvh g qp : ℕ)
    (hid : List ℚ) (j : ℕ)
    (hj : ∀ d2, d2 < dq → j ≠ h_idx nkvh ng dq qp (kvh * ng + g) d2) :
    (out_d_loop att v nkvh ng s tt dq kvh g qp hid).getD j 0 = hid.getD j 0 := by
  unfold out_d_loop
  exact foldl_write_getD_out _ (fun d2 j2 => j2 = h_idx nkvh ng dq qp (kvh * ng + g) d2)
    dq (fun st i j2 _ hn => set_getD_other st _ _ j2 hn) hid j hj

theorem out_d_loop_getD (att v : List ℚ) (nkvh ng s tt dq kvh g qp d : ℕ)
    (hid : List ℚ) (hd : d < dq)
    (hidx : h_idx nkvh ng dq qp (kvh * ng + g) d < hid.length) :
    (out_d_loop att v nkvh ng s tt dq kvh g qp hid).getD
      (h_idx nkvh ng dq qp (kvh * ng + g) d) 0 =
      att_weighted att v nkvh ng s tt dq kvh g qp d := by
  unfold out_d_loop
  refine foldl_write_getD _ (fun d2 j => j = h_idx nkvh ng dq qp (kvh * ng + g) d2)
    (fun d2 _ => att_weighted att v nkvh ng s tt dq kvh g qp d2) dq
    (fun st i => by simp) ?_ ?_ ?_ hid d _ hd rfl hidx
  · intro st i j _ hn
    exact set_getD_other st _ _ j hn
  · intro st i j _ hw hj
    subst hw
    exact set_getD_same st _ _ hj
  · intro i i' j _ _ hne hw hw'
    have h2 := hw.symm.trans hw'
    unfold h_idx at h2
    exact hne (Nat.add_left_cancel h2)

theorem out_qp_loop_length (att v : List ℚ) (nkvh ng s tt dq kvh g : ℕ)
    (hid : List ℚ) :
    (out_qp_loop att v nkvh ng s tt dq kvh g hid).length = hid.length := by
  unfold out_qp_loop
  exact foldl_write_length _
    (fun st i => out_d_loop_length att v nkvh ng s tt dq kvh g i st) s hid

theorem out_qp_loop_getD_out (att v : List ℚ) (nkvh ng s tt dq kvh g : ℕ)
    (hid : List ℚ) (j : ℕ)
    (hj : ∀ qp2 d2, qp2 < s → d2 < dq → j ≠ h_idx nkvh ng dq qp2 (kvh * ng + g) d2) :
    (out_qp_loop att v nkvh ng s tt dq kvh g hid).getD j 0 = hid.getD j 0 := by
  unfold out_qp_loop
  exact foldl_write_getD_out _
    (fun qp2 j2 => ∃ d2, d2 < dq ∧ j2 = h_idx nkvh ng dq qp2 (kvh * ng + g) d2) s
    (fun st i j2 _ hn => out_d_loop_getD_out att v nkvh ng s tt dq kvh g i st j2
      (fun d2 hd2 hne => hn ⟨d2, hd2, hne⟩)) hid j
    (fun i hi hw => hw.elim (fun d2 h2 => hj i d2 hi h2.1 h2.2))

theorem out_qp_loop_getD (att v : List ℚ) (nkvh ng s tt dq kvh g qp d : ℕ)
    (hid : List ℚ) (h1 : kvh < nkvh) (h2 : g < ng) (hqp : qp < s) (hd : d < dq)
    (hidx : h_idx nkvh ng dq qp (kvh * ng + g) d < hid.length) :
    (out_qp_loop att v nkvh ng s tt dq kvh g hid).getD
      (h_idx nkvh ng dq qp (kvh * ng + g) d) 0 =
      att_weighted att v nkvh ng s tt dq kvh g qp d := by
  unfold out_qp_loop
  have main := foldl_write_getD _
    (fun qp2 j => ∃ d2, d2 < dq ∧ j = h_idx nkvh ng dq qp2 (kvh * ng + g) d2)
    (fun qp2 j => att_weighted att v nkvh ng s tt dq kvh g qp2 (j % dq)) s
    (fun st i => out_d_loop_length att v nkvh ng s tt dq kvh g i st)
    (fun st i j _ hn => out_d_loop_getD_out att v nkvh ng s tt dq kvh g i st j
      (fun d2 hd2 hne => hn ⟨d2, hd2, hne⟩))
    (fun st i j _ hw hjlen => by
      obtain ⟨d2, hd2, he⟩ := hw
      subst he
      rw [out_d_loop_getD att v nkvh ng s tt dq kvh g i d2 st hd2 hjlen]
      simp only [h_idx_mod_dq nkvh ng dq i _ d2 hd2])
    (fun i i' j _ _ hne hw hw' => by
      obtain ⟨d2, hd2, he⟩ := hw
      obtain ⟨d2', hd2', he'⟩ := hw'
      exact hne (h_idx_inj_qp nkvh ng dq i i' (kvh * ng + g) d2 d2'
        (qh_lt nkvh ng kvh g h1 h2) hd2 hd2' (he.symm.trans he')).1)
    hid qp _ hqp ⟨d, hd, rfl⟩ hidx
  rw [main]
  simp only [h_idx_mod_dq nkvh ng dq qp _ d hd]

theorem out_g_loop_length (att v : List ℚ) (nkvh ng s tt dq kvh : ℕ) (hid : List ℚ) :
    (out_g_loop att v nkvh ng s tt dq kvh hid).length = hid.length := by
  unfold out_g_loop
  exact foldl_write_length _
    (fun st i => out_qp_loop_length att v nkvh ng s tt dq kvh i st) ng hid

theorem out_g_loop_getD_out (att v : List ℚ) (nkvh ng s tt dq kvh : ℕ)
    (hid : List ℚ) (j : ℕ)
    (hj : ∀ g2 qp2 d2, g2 < ng → qp2 < s → d2 < dq →
      j ≠ h_idx nkvh ng dq qp2 (kvh * ng + g2) d2) :
    (out_g_loop att v nkvh ng s tt dq kvh hid).getD j 0 = hid.getD j 0 := by
  unfold out_g_loop
  exact foldl_write_getD_out _
    (fun g2 j2 => ∃ qp2 d2, qp2 < s ∧ d2 < dq ∧
      j2 = h_idx nkvh ng dq qp2 (kvh * ng + g2) d2) ng
    (fun st i j2 _ hn => out_qp_loop_getD_out att v nkvh ng s tt dq kvh i st j2
      (fun qp2 d2 hqp2 hd2 hne => hn ⟨qp2, d2, hqp2, hd2, hne⟩)) hid j
    (fun i hi hw => hw.elim (fun qp2 h2 => h2.elim
      (fun d2 h3 => hj i qp2 d2 hi h3.1 h3.2.1 h3.2.2)))

theorem out_g_loop_getD (att v : List ℚ) (nkvh ng s tt dq kvh g qp d : ℕ)
    (hid : List ℚ) (h1 : kvh < nkvh) (h2 : g < ng) (hqp : qp < s) (hd : d < dq)
    (hidx : h_idx nkvh ng dq qp (kvh * ng + g) d < hid.length) :
    (out_g_loop att v nkvh ng s tt dq kvh hid).getD
      (h_idx nkvh ng dq qp (kvh * ng + g) d) 0 =
      att_weighted att v nkvh ng s tt dq kvh g qp d := by
  unfold out_g_loop
  have main := foldl_write_getD _
    (fun g2 j => ∃ qp2 d2, qp2 < s ∧ d2 < dq ∧
      j = h_idx nkvh ng dq qp2 (kvh * ng + g2) d2)
    (fun g2 j => att_weighted att v nkvh ng s tt dq kvh g2 (j / (nkvh * ng * dq)) (j % dq))
    ng
    (fun st i => out_qp_loop_length att v nkvh ng s tt dq kvh i st)
    (fun st i j _ hn => out_qp_loop_getD_out att v nkvh ng s tt dq kvh i st j
      (fun qp2 d2 hqp2 hd2 hne => hn ⟨qp2, d2, hqp2, hd2, hne⟩))
    (fun st i j hi2 hw hjlen => by
      obtain ⟨qp2, d2, hqp2, hd2, he⟩ := hw
      subst he
      rw [out_qp_loop_getD att v nkvh ng s tt dq kvh i qp2 d2 st h1 hi2 hqp2 hd2 hjlen]
      simp only [h_idx_div_H nkvh ng dq qp2 _ d2 (qh_lt nkvh ng kvh i h1 hi2) hd2,
        h_idx_mod_dq nkvh ng dq qp2 _ d2 hd2])
    (fun i i' j hi2 hi2' hne hw hw' => by
      obtain ⟨qp2, d2, hqp2, hd2, he⟩ := hw
      obtain ⟨qp2', d2', hqp2', hd2', he'⟩ := hw'
      exact hne (h_idx_inj_g nkvh ng dq kvh i i' qp2 qp2' d2 d2' h1 hi2 hi2' hd2 hd2'
        (he.symm.trans he')))
    hid g _ h2 ⟨qp, d, hqp, hd, rfl⟩ hidx
  rw [main]
  simp only [h_idx_div_H nkvh ng dq qp _ d (qh_lt nkvh ng kvh g h1 h2) hd,
    h_idx_mod_dq nkvh ng dq qp _ d hd]

theorem attention_output_getD (att v : List ℚ) (nkvh ng s tt dq : ℕ) (hid : List ℚ)
    (kvh g qp d : ℕ) (h1 : kvh < nkvh) (h2 : g < ng) (h3 : qp < s) (h5 : d < dq)
    (hidx : h_idx nkvh ng dq qp (kvh * ng + g) d < hid.length) :
    (attention_output att v nkvh ng s tt dq hid).getD
      (h_idx nkvh ng dq qp (kvh * ng + g) d) 0 =
      att_weighted att v nkvh ng s tt dq kvh g qp d := by
  unfold attention_output
  have main := foldl_write_getD _
    (fun kvh2 j => ∃ g2 qp2 d2, g2 < ng ∧ qp2 < s ∧ d2 < dq ∧
      j = h_idx nkvh ng dq qp2 (kvh2 * ng + g2) d2)
    (fun kvh2 j => att_weighted att v nkvh ng s tt dq kvh2
      (j % (nkvh * ng * dq) / dq - kvh2 * ng) (j / (nkvh * ng * dq)) (j % dq)) nkvh
    (fun st i => out_g_loop_length att v nkvh ng s tt dq i st)
    (fun st i j _ hn => out_g_loop_getD_out att v nkvh ng s tt dq i st j
      (fun g2 qp2 d2 hg2 hqp2 hd2 hne => hn ⟨g2, qp2, d2, hg2, hqp2, hd2, hne⟩))
    (fun st i j hi2 hw hjlen => by
      obtain ⟨g2, qp2, d2, hg2, hqp2, hd2, he⟩ := hw
      subst he
      rw [out_g_loop_getD att v nkvh ng s tt dq i g2 qp2 d2 st hi2 hg2 hqp2 hd2 hjlen]
      simp only [h_idx_modH_div_dq nkvh ng dq qp2 _ d2 (qh_lt nkvh ng i g2 hi2 hg2) hd2,
        h_idx_div_H nkvh ng dq qp2 _ d2 (qh_lt nkvh ng i g2 hi2 hg2) hd2,
        h_idx_mod_dq nkvh ng dq qp2 _ d2 hd2, Nat.add_sub_cancel_left])
    (fun i i' j hi2 hi2' hne hw hw' => by
      obtain ⟨g2, qp2, d2, hg2, hqp2, hd2, he⟩ := hw
      obtain ⟨g2', qp2', d2', hg2', hqp2', hd2', he'⟩ := hw'
      exact hne (h_idx_inj_kvh nkvh ng dq i i' g2 g2' qp2 qp2' d2 d2' hi2 hi2' hg2 hg2'
        hd2 hd2' (he.symm.trans he')))
    hid kvh _ h1 ⟨g, qp, d, h2, h3, h5, rfl⟩ hidx
  rw [main]
  simp only [h_idx_modH_div_dq nkvh ng dq qp _ d (qh_lt nkvh ng kvh g h1 h2) h5,
    h_idx_div_H nkvh ng dq qp _ d (qh_lt nkvh ng kvh g h1 h2) h5,
    h_idx_mod_dq nkvh ng dq qp _ d h5, Nat.add_sub_cancel_left]

/-- **C1** (confirmed).  In `self_attention`, for every in-range
(kv_head, group, q_pos, k_pos) with q_head = kv_head * n_groups + group, the
score phase writes at position [kv_head, group, q_pos, k_pos] exactly the
dot product between query head q_head's vector at row q_pos and kv_head's
key vector at row k_pos, scaled by 1 / sqrt(head_dim); and after masked
softmax runs over all scores, the output hidden state at row q_pos, slice
for q_head, component d, is the attention-weighted sum over that kv_head's
value vectors across all total_seq_len positions. -/
theorem c1_self_attention_scores_and_output (t : TransOps) (hid att q k v : List ℚ)
    (nkvh ng s tt dq kvh g qp kp d : ℕ)
    (h1 : kvh < nkvh) (h2 : g < ng) (h3 : qp < s) (h4 : kp < tt) (h5 : d < dq)
    (hatt : att.length = nkvh * ng * s * tt)
    (hhid : hid.length = s * (nkvh * ng * dq)) :
    (attention_scores t q k nkvh ng s tt dq att).getD (att_idx ng s tt kvh g qp kp) 0 =
      attn_score t q k nkvh ng dq kvh g qp kp ∧
    (self_attention t hid att q k v nkvh ng s tt dq).1.getD
        (h_idx nkvh ng dq qp (kvh * ng + g) d) 0 =
      att_weighted
        (masked_softmax t (attention_scores t q k nkvh ng s tt dq att) (nkvh * ng) s tt)
        v nkvh ng s tt dq kvh g qp d := by
  constructor
  · exact attention_scores_getD t q k nkvh ng s tt dq att kvh g qp kp h1 h2 h3 h4
      (by rw [hatt]; exact att_idx_lt nkvh ng s tt kvh g qp kp h1 h2 h3 h4)
  · exact attention_output_getD
      (masked_softmax t (attention_scores t q k nkvh ng s tt dq att) (nkvh * ng) s tt)
      v nkvh ng s tt dq hid kvh g qp d h1 h2 h3 h5
      (by rw [hhid]; exact h_idx_lt nkvh ng dq s qp _ d h3 (qh_lt nkvh ng kvh g h1 h2) h5)

/-- Witness for C1's theorem at a 1-head, 1-position, 1-dimension instance
with q = [2], k = [3], v = [5]. -/
theorem c1_self_attention_scores_and_output_witness :
    (attention_scores t_ex [2] [3] 1 1 1 1 1 [0]).getD (att_idx 1 1 1 0 0 0 0) 0 =
      attn_score t_ex [2] [3] 1 1 1 0 0 0 0 ∧
    (self_attention t_ex [0] [0] [2] [3] [5] 1 1 1 1 1).1.getD
        (h_idx 1 1 1 0 (0 * 1 + 0) 0) 0 =
      att_weighted
        (masked_softmax t_ex (attention_scores t_ex [2] [3] 1 1 1 1 1 [0]) (1 * 1) 1 1)
        [5] 1 1 1 1 1 0 0 0 0 :=
  c1_self_attention_scores_and_output t_ex [0] [0] [2] [3] [5] 1 1 1 1 1 0 0 0 0 0
    (by decide) (by decide) (by decide) (by decide) (by decide) (by decide) (by decide)
